import Mathlib

/-!
# Cloud Native PostgreSQL: scale-down and rolling-upgrade controllers

A shallow embedding of `controllers/cluster_upgrade.go`, `controllers/cluster_scale.go`
and `pkg/management/postgres/probes.go`.

Conventions of the embedding

* A Go `error` result is an `Option Error` (`none` is `nil`).
* The object store reached through `r.Delete` and `r.setPrimaryInstance` is a collaborator:
  the reconciler value carries, for every request, the answer the collaborator gives, and
  every request issued is recorded, in order, in the `calls` of the returned `Outcome`.
* Calls to `r.Log` are not recorded: they do not influence control flow.
* The database reached by `GetStatus` is a collaborator as well: an `Instance` carries the
  answer to each read, and the reads performed are recorded, in order, in the `ProbeOutcome`.
* Go compares strings byte by byte; on valid UTF-8 this is the order of the code point
  sequences, which is `strLess` below and Lean's order on `String` (`strLess_iff`).
-/

namespace CNPG

/-! ## Data model -/

/-- A Go error value, identified by its message. -/
structure Error where
  msg : String
deriving DecidableEq, Repr

/-- The package variable `ErrorInconsistentClusterStatus` (cluster_upgrade.go, line 24). -/
def ErrorInconsistentClusterStatus : Error := ⟨"inconsistent cluster status"⟩

deriving instance DecidableEq for Except

/-- The fields of `v1.Pod` the controllers read. `PostgreSQLImageName` is the outcome of the
image-name lookup on this pod, see `GetPostgreSQLImageName`. -/
structure Pod where
  Name : String
  Namespace : String
  PostgreSQLImageName : Except Error String
deriving DecidableEq, Repr

/-- The type `v1.PodList`. -/
structure PodList where
  Items : List Pod
deriving DecidableEq, Repr

/-- Modelled from the spec: the type `v1alpha1.MasterUpdateStrategy` is declared outside the
sources at hand; the spec (section 3) gives `masterUpdateStrategy ∈ {Unsupervised, Supervised}`,
and the source names the supervised value `MasterUpdateStrategyWait`. -/
inductive MasterUpdateStrategy where
  | MasterUpdateStrategyUnsupervised
  | MasterUpdateStrategyWait
deriving DecidableEq, Repr

/-- Modelled from the spec: the fields of `v1alpha1.ClusterSpec` (declared outside the sources at
hand) that the spec (section 3) lists: target image reference, target member count (a count,
hence a natural number), update strategy, and whether the cluster uses durable per-member
storage. -/
structure ClusterSpec where
  ImageName : String
  Instances : Nat
  MasterUpdateStrategy : MasterUpdateStrategy
  PersistentStorage : Bool
deriving DecidableEq, Repr

/-- The fields `cluster.Status.CurrentPrimary` and `cluster.Status.TargetPrimary`. -/
structure ClusterStatus where
  CurrentPrimary : String
  TargetPrimary : String
deriving DecidableEq, Repr

/-- The fields of `v1alpha1.Cluster` the controllers read. -/
structure Cluster where
  Name : String
  Namespace : String
  Spec : ClusterSpec
  Status : ClusterStatus
deriving DecidableEq, Repr

/-- Modelled from the spec: `Cluster.GetImageName` is defined outside the sources at hand; it
yields the cluster's target image reference (spec, section 3). -/
def Cluster.GetImageName (cluster : Cluster) : String := cluster.Spec.ImageName

/-- Modelled from the spec: `Cluster.GetMasterUpdateStrategy` is defined outside the sources at
hand; it yields the cluster's update strategy (spec, section 3). -/
def Cluster.GetMasterUpdateStrategy (cluster : Cluster) : MasterUpdateStrategy :=
  cluster.Spec.MasterUpdateStrategy

/-- Modelled from the spec: `Cluster.IsUsingPersistentStorage` is defined outside the sources at
hand; it tells whether the cluster is configured for durable storage (spec, section 3). -/
def Cluster.IsUsingPersistentStorage (cluster : Cluster) : Bool := cluster.Spec.PersistentStorage

/-- Modelled from the spec: `specs.GetPostgreSQLImageName` is defined outside the sources at
hand; a member has "the image reference it is currently running" (spec, section 3), and the
lookup can fail (cluster_upgrade.go, line 44), so a pod carries the outcome of the lookup. -/
def GetPostgreSQLImageName (pod : Pod) : Except Error String := pod.PostgreSQLImageName

/-- The fields of `postgres.PostgresqlStatus` read or written by the sources. -/
structure PostgresqlStatus where
  PodName : String
  SystemID : String
  IsPrimary : Bool
  ReceivedLsn : String
  ReplayLsn : String
deriving DecidableEq, Repr

/-- The type `postgres.PostgresqlStatusList`. -/
structure PostgresqlStatusList where
  Items : List PostgresqlStatus
deriving DecidableEq, Repr

/-! ## Collaborators and recorded calls -/

/-- An object handed to `r.Delete`: a pod, or a persistent volume claim given by its
`ObjectMeta` name and namespace. -/
inductive Object where
  | Pod (pod : Pod)
  | PersistentVolumeClaim (Name : String) (Namespace : String)
deriving DecidableEq, Repr

/-- A request sent to the object store. -/
inductive Call where
  | Delete (obj : Object)
  | setPrimaryInstance (podName : String)
deriving DecidableEq, Repr

/-- The answers of the object store behind a `ClusterReconciler`: the error returned by
`r.Delete(ctx, obj)` and by `r.setPrimaryInstance(ctx, cluster, podName)`. -/
structure ClusterReconciler where
  Delete : Object → Option Error
  setPrimaryInstance : Cluster → String → Option Error

/-- What one invocation of a controller did: the requests it issued, in order, and the error
it returned. -/
structure Outcome where
  calls : List Call
  err : Option Error
deriving DecidableEq, Repr

/-- True for a pod delete request. -/
def Call.isPodDelete : Call → Bool
  | .Delete (.Pod _) => true
  | _ => false

/-- True for a storage-claim delete request. -/
def Call.isClaimDelete : Call → Bool
  | .Delete (.PersistentVolumeClaim _ _) => true
  | _ => false

/-- True for any delete request. -/
def Call.isDelete : Call → Bool
  | .Delete _ => true
  | _ => false

/-- True for a status update request. -/
def Call.isStatusUpdate : Call → Bool
  | .setPrimaryInstance _ => true
  | _ => false

/-! ## String order and `sort.Slice` -/

/-- Lexicographic "less than" on code point sequences. -/
def lexLess : List Char → List Char → Bool
  | _, [] => false
  | [], _ :: _ => true
  | a :: as, b :: bs =>
    if a.toNat < b.toNat then true
    else if a.toNat = b.toNat then lexLess as bs
    else false

/-- Go's `a < b` on strings. -/
def strLess (a b : String) : Bool := lexLess a.data b.data

/-- Go's `sort.Slice(x, less)`: the elements of `x` rearranged so that no element is `less`
than one before it. The library does not specify the order of elements neither of which is
`less` than the other (the sort is not stable); the model keeps them in their input order.
Statements that depend on the order of pods of equal name therefore assume pairwise distinct
names, under which every correct sort returns the same list (`sortSlice_eq_of_perm`). -/
def sortSlice {α : Type} (x : List α) (less : α → α → Bool) : List α :=
  x.insertionSort (fun a b => less b a = false)

/-! ## `controllers/cluster_upgrade.go` -/

/-- A pod is stale for a target image when its image name can be read and differs from the
target (the test of lines 43–52). -/
def Pod.isStale (pod : Pod) (targetImageName : String) : Bool :=
  match GetPostgreSQLImageName pod with
  | .error _ => false
  | .ok usedImageName => decide (usedImageName ≠ targetImageName)

/-- True when the image name of the pod can be read (line 43 returns no error). -/
def Pod.imageReadable (pod : Pod) : Bool :=
  match GetPostgreSQLImageName pod with
  | .error _ => false
  | .ok _ => true

/-- The pods `upgradeCluster` may delete: stale, and not named as the current primary. -/
def Pod.isStaleReplica (pod : Pod) (cluster : Cluster) (targetImageName : String) : Bool :=
  pod.isStale targetImageName && decide (cluster.Status.CurrentPrimary ≠ pod.Name)

/-- Lines 94–104: `upgradePod` deletes the pod and returns the result of the delete. -/
def upgradePod (r : ClusterReconciler) (_cluster : Cluster) (pod : Pod) : Outcome :=
  ⟨[Call.Delete (Object.Pod pod)], r.Delete (Object.Pod pod)⟩

/-- Lines 42–60: the loop `for idx, pod := range sortedPodList`, started at index `idx` with
the current value of `masterIdx`. `Sum.inl` is a `return` from inside the loop, `Sum.inr` is the
value of `masterIdx` when the loop ends. -/
def upgradeLoop (r : ClusterReconciler) (cluster : Cluster) (targetImageName : String) :
    List Pod → Nat → Int → Sum Outcome Int
  | [], _, masterIdx => Sum.inr masterIdx
  | pod :: rest, idx, masterIdx =>
    match GetPostgreSQLImageName pod with
    | .error _ => upgradeLoop r cluster targetImageName rest (idx + 1) masterIdx
    | .ok usedImageName =>
      if usedImageName ≠ targetImageName then
        if cluster.Status.CurrentPrimary = pod.Name then
          upgradeLoop r cluster targetImageName rest (idx + 1) (idx : Int)
        else
          Sum.inl (upgradePod r cluster pod)
      else
        upgradeLoop r cluster targetImageName rest (idx + 1) masterIdx

/-- Lines 28–91: `upgradeCluster`. -/
def upgradeCluster (r : ClusterReconciler) (cluster : Cluster) (podList : PodList)
    (clusterStatus : PostgresqlStatusList) : Outcome :=
  let targetImageName := cluster.GetImageName
  let sortedPodList := sortSlice podList.Items (fun i j => strLess j.Name i.Name)
  match upgradeLoop r cluster targetImageName sortedPodList 0 (-1) with
  | Sum.inl returned => returned
  | Sum.inr masterIdx =>
    if masterIdx = -1 then ⟨[], none⟩
    else if cluster.GetMasterUpdateStrategy = MasterUpdateStrategy.MasterUpdateStrategyWait then
      ⟨[], none⟩
    else if h : clusterStatus.Items.length < 2 then
      ⟨[], some ErrorInconsistentClusterStatus⟩
    else if (clusterStatus.Items.get ⟨1, by omega⟩).IsPrimary then
      ⟨[], some ErrorInconsistentClusterStatus⟩
    else
      ⟨[Call.setPrimaryInstance (clusterStatus.Items.get ⟨1, by omega⟩).PodName],
        r.setPrimaryInstance cluster (clusterStatus.Items.get ⟨1, by omega⟩).PodName⟩

/-! ## `controllers/cluster_scale.go` -/

/-- Modelled from the spec: `getSacrificialPod` is defined outside the sources at hand; the call
site (cluster_scale.go, line 27) passes it the pod list only and tests the result against `nil`.
Spec, section 4.2: it "picks a single sacrificial member from the current set (designed to be the
highest-ordered by name)"; the model follows this on every list that has a member and answers
`nil` on the empty list. When the real function answers `nil` is not known from the sources:
statements about the no-op of `scaleDownCluster` are made on `scaleDownClusterWith`, for every
selector. Among pods of equal name the first is kept. -/
def getSacrificialPod : List Pod → Option Pod
  | [] => none
  | pod :: rest =>
    match getSacrificialPod rest with
    | none => some pod
    | some best => if strLess pod.Name best.Name then some best else some pod

/-- Lines 21–63: `scaleDownCluster`. The error built by `fmt.Errorf` on line 59 carries the
formatted message. -/
def scaleDownCluster (r : ClusterReconciler) (cluster : Cluster) (childPods : PodList) :
    Outcome :=
  match getSacrificialPod childPods.Items with
  | none => ⟨[], none⟩
  | some sacrificialPod =>
    match r.Delete (Object.Pod sacrificialPod) with
    | some err => ⟨[Call.Delete (Object.Pod sacrificialPod)], some err⟩
    | none =>
      if !cluster.IsUsingPersistentStorage then
        ⟨[Call.Delete (Object.Pod sacrificialPod)], none⟩
      else
        let pvc := Object.PersistentVolumeClaim sacrificialPod.Name sacrificialPod.Namespace
        match r.Delete pvc with
        | some err =>
          ⟨[Call.Delete (Object.Pod sacrificialPod), Call.Delete pvc],
            some ⟨"scaling down node (pvc) " ++ sacrificialPod.Name ++ ": " ++ err.msg⟩⟩
        | none => ⟨[Call.Delete (Object.Pod sacrificialPod), Call.Delete pvc], none⟩

/-- Lines 21–63 again, with the function called on line 27 left as a parameter: `select` stands
for any function of the pod list that `getSacrificialPod` may be. -/
def scaleDownClusterWith (select : List Pod → Option Pod) (r : ClusterReconciler)
    (cluster : Cluster) (childPods : PodList) : Outcome :=
  match select childPods.Items with
  | none => ⟨[], none⟩
  | some sacrificialPod =>
    match r.Delete (Object.Pod sacrificialPod) with
    | some err => ⟨[Call.Delete (Object.Pod sacrificialPod)], some err⟩
    | none =>
      if !cluster.IsUsingPersistentStorage then
        ⟨[Call.Delete (Object.Pod sacrificialPod)], none⟩
      else
        let pvc := Object.PersistentVolumeClaim sacrificialPod.Name sacrificialPod.Namespace
        match r.Delete pvc with
        | some err =>
          ⟨[Call.Delete (Object.Pod sacrificialPod), Call.Delete pvc],
            some ⟨"scaling down node (pvc) " ++ sacrificialPod.Name ++ ": " ++ err.msg⟩⟩
        | none => ⟨[Call.Delete (Object.Pod sacrificialPod), Call.Delete pvc], none⟩

/-! ## Concrete inputs used by the examples -/

/-- An object store in which every request succeeds. -/
def okReconciler : ClusterReconciler := ⟨fun _ => none, fun _ _ => none⟩

/-- An object store that refuses every pod delete and accepts every other request. -/
def refusingReconciler : ClusterReconciler :=
  ⟨fun obj =>
    match obj with
    | Object.Pod _ => some ⟨"pod delete refused"⟩
    | Object.PersistentVolumeClaim _ _ => none,
   fun _ _ => none⟩

/-- A cluster `pg` in namespace `default` with target image `v2`, three instances wanted and
current primary `pg-1`. -/
def exampleCluster (strategy : MasterUpdateStrategy) : Cluster :=
  ⟨"pg", "default", ⟨"v2", 3, strategy, true⟩, ⟨"pg-1", "pg-1"⟩⟩

/-- The same cluster under the Wait strategy, with two instances wanted. -/
def twoInstanceCluster : Cluster :=
  ⟨"pg", "default", ⟨"v2", 2, .MasterUpdateStrategyWait, true⟩, ⟨"pg-1", "pg-1"⟩⟩

/-- A pod of namespace `default` whose image lookup succeeds. -/
def examplePod (name image : String) : Pod := ⟨name, "default", .ok image⟩

/-- Pods `pg-1` (image `v1`), `pg-2` (image `v1`) and `pg-3` (image `v2`). -/
def threePods : PodList :=
  ⟨[examplePod "pg-1" "v1", examplePod "pg-2" "v1", examplePod "pg-3" "v2"]⟩

/-- The single pod `pg-1`, running image `v1`. -/
def primaryOnly : PodList := ⟨[examplePod "pg-1" "v1"]⟩

/-- Pods `pg-1`, `pg-2` and `pg-3`, all running the target image `v2`. -/
def upToDatePods : PodList :=
  ⟨[examplePod "pg-1" "v2", examplePod "pg-2" "v2", examplePod "pg-3" "v2"]⟩

/-- A snapshot whose entry 0 is the primary `pg-1` and whose entry 1 is the replica `pg-2`. -/
def goodSnapshot : PostgresqlStatusList :=
  ⟨[⟨"pg-1", "7000", true, "", ""⟩, ⟨"pg-2", "7000", false, "100", "100"⟩]⟩

/-- A snapshot whose entry 1 is marked primary. -/
def twoPrimariesSnapshot : PostgresqlStatusList :=
  ⟨[⟨"pg-1", "7000", true, "", ""⟩, ⟨"pg-2", "7000", true, "", ""⟩]⟩

/-! ## `pkg/management/postgres/probes.go` -/

/-- The answers of the database behind the superuser connection to the three statements of
`GetStatus`: for each `QueryRow(...)` followed by `Scan(...)`, the values scanned or the error.
`systemIdentifier` answers `SELECT system_identifier FROM pg_control_system()`, `isPrimary`
answers `SELECT NOT pg_is_in_recovery()`, and `walPositions` answers
`SELECT pg_last_wal_receive_lsn(), pg_last_wal_replay_lsn()`. -/
structure SuperuserDB where
  systemIdentifier : Except Error String
  isPrimary : Except Error Bool
  walPositions : Except Error (String × String)
deriving DecidableEq, Repr

/-- A PostgreSQL instance as the probe sees it: `superuserDB` is the outcome of
`instance.GetSuperuserDB()`, a collaborator outside the sources at hand. -/
structure Instance where
  superuserDB : Except Error SuperuserDB
deriving DecidableEq, Repr

/-- The call `instance.GetSuperuserDB()`. -/
def Instance.GetSuperuserDB (inst : Instance) : Except Error SuperuserDB := inst.superuserDB

/-- A read performed by `GetStatus`: obtaining the superuser connection, or one of its three
queries. -/
inductive Read where
  | GetSuperuserDB
  | SystemIdentifier
  | IsPrimary
  | WalPositions
deriving DecidableEq, Repr

/-- What one call of `GetStatus` did: the reads it performed, in order, and the pair
`(*PostgresqlStatus, error)` it returned (`none` is `nil`). -/
structure ProbeOutcome where
  reads : List Read
  status : Option PostgresqlStatus
  err : Option Error
deriving DecidableEq, Repr

/-- Lines 27–58: `GetStatus`. `result` starts as the zero value `postgres.PostgresqlStatus{}`. -/
def Instance.GetStatus (inst : Instance) : ProbeOutcome :=
  match inst.GetSuperuserDB with
  | .error err => ⟨[Read.GetSuperuserDB], none, some err⟩
  | .ok superUserDb =>
    let result : PostgresqlStatus := ⟨"", "", false, "", ""⟩
    match superUserDb.systemIdentifier with
    | .error err => ⟨[Read.GetSuperuserDB, Read.SystemIdentifier], none, some err⟩
    | .ok systemID =>
      let result := { result with SystemID := systemID }
      match superUserDb.isPrimary with
      | .error err =>
        ⟨[Read.GetSuperuserDB, Read.SystemIdentifier, Read.IsPrimary], none, some err⟩
      | .ok isPrimary =>
        let result := { result with IsPrimary := isPrimary }
        if !result.IsPrimary then
          match superUserDb.walPositions with
          | .error err =>
            ⟨[Read.GetSuperuserDB, Read.SystemIdentifier, Read.IsPrimary, Read.WalPositions],
              none, some err⟩
          | .ok (receivedLsn, replayLsn) =>
            ⟨[Read.GetSuperuserDB, Read.SystemIdentifier, Read.IsPrimary, Read.WalPositions],
              some { result with ReceivedLsn := receivedLsn, ReplayLsn := replayLsn }, none⟩
        else
          ⟨[Read.GetSuperuserDB, Read.SystemIdentifier, Read.IsPrimary], some result, none⟩

/-! ## Further concrete inputs -/

/-- An object store that refuses every storage-claim delete and accepts every other request. -/
def claimRefusingReconciler : ClusterReconciler :=
  ⟨fun obj =>
    match obj with
    | Object.Pod _ => none
    | Object.PersistentVolumeClaim _ _ => some ⟨"claim delete refused"⟩,
   fun _ _ => none⟩

/-- The cluster `pg` under the Wait strategy, two instances wanted, without durable storage. -/
def ephemeralCluster : Cluster :=
  ⟨"pg", "default", ⟨"v2", 2, .MasterUpdateStrategyWait, false⟩, ⟨"pg-1", "pg-1"⟩⟩

/-- A pod of namespace `default` whose image lookup fails. -/
def unreadablePod (name : String) : Pod :=
  ⟨name, "default", .error ⟨"no postgres container"⟩⟩

/-- The primary `pg-1` with an unreadable image, and `pg-2`, `pg-3` on the target image. -/
def unreadablePrimaryPods : PodList :=
  ⟨[unreadablePod "pg-1", examplePod "pg-2" "v2", examplePod "pg-3" "v2"]⟩

/-- The primary `pg-1` on image `v1`, and `pg-2`, `pg-3` on the target image `v2`. -/
def stalePrimaryPods : PodList :=
  ⟨[examplePod "pg-1" "v1", examplePod "pg-2" "v2", examplePod "pg-3" "v2"]⟩

/-- The pods of `threePods` in another arrival order. -/
def threePodsShuffled : PodList :=
  ⟨[examplePod "pg-3" "v2", examplePod "pg-1" "v1", examplePod "pg-2" "v1"]⟩

/-- A snapshot of the two replicas `pg-2` and `pg-3`: no entry is marked primary. -/
def noPrimarySnapshot : PostgresqlStatusList :=
  ⟨[⟨"pg-2", "7000", false, "200", "200"⟩, ⟨"pg-3", "7000", false, "100", "100"⟩]⟩

/-- The primary `pg-1` and `pg-2` on image `v1`, and `pg-3` with an unreadable image name:
`pg-3` comes first in the scan. -/
def unreadableAheadPods : PodList :=
  ⟨[examplePod "pg-1" "v1", examplePod "pg-2" "v1", unreadablePod "pg-3"]⟩

/-- An instance whose superuser connection cannot be obtained. -/
def unreachableInstance : Instance := ⟨.error ⟨"connection refused"⟩⟩

/-- A replica whose log-position query fails. -/
def brokenReplicaInstance : Instance :=
  ⟨.ok ⟨.ok "7000", .ok false, .error ⟨"no wal positions"⟩⟩⟩

/-- A primary whose log-position query would fail if it were issued. -/
def primaryInstance : Instance :=
  ⟨.ok ⟨.ok "7000", .ok true, .error ⟨"no wal positions"⟩⟩⟩

/-- A replica that has received up to `300` and replayed up to `200`. -/
def replicaInstance : Instance :=
  ⟨.ok ⟨.ok "7000", .ok false, .ok ("300", "200")⟩⟩

/-! ## The order on names -/

theorem char_toNat_lt (a b : Char) : a.toNat < b.toNat ↔ a < b := by
  rw [Char.lt_iff_val_lt_val]
  exact Iff.rfl

theorem char_toNat_eq (a b : Char) : a.toNat = b.toNat ↔ a = b := by
  constructor
  · intro h
    apply Char.ext
    apply UInt32.ext
    exact h
  · intro h; rw [h]

theorem lex_cons_cons (a b : Char) (as bs : List Char) :
    (a :: as) < (b :: bs) ↔ a < b ∨ (a = b ∧ as < bs) := by
  constructor
  · intro h
    cases h with
    | rel h => exact Or.inl h
    | cons h => exact Or.inr ⟨rfl, h⟩
  · rintro (h | ⟨rfl, h⟩)
    · exact List.Lex.rel h
    · exact List.Lex.cons h

theorem lexLess_iff : ∀ (l1 l2 : List Char), lexLess l1 l2 = true ↔ l1 < l2
  | l1, [] => by
    cases l1 <;> simp [lexLess, List.Lex.not_nil_right]
  | [], b :: bs => by
    simp [lexLess]; exact List.nil_lt_cons b bs
  | a :: as, b :: bs => by
    have ih := lexLess_iff as bs
    have hc : lexLess (a :: as) (b :: bs) =
        (if a.toNat < b.toNat then true else if a.toNat = b.toNat then lexLess as bs else false) := by
      rw [lexLess]
    rw [lex_cons_cons, ← ih, ← char_toNat_lt, ← char_toNat_eq, hc]
    by_cases h1 : a.toNat < b.toNat
    · simp [h1]
    · by_cases h2 : a.toNat = b.toNat
      · simp [h1, h2]
      · simp [h1, h2]

/-- The comparison used by the code is the order of `String`. -/
theorem strLess_iff (a b : String) : strLess a b = true ↔ a < b := by
  rw [String.lt_iff_toList_lt]
  exact lexLess_iff a.data b.data

theorem strLess_eq_false_iff (a b : String) : strLess a b = false ↔ b ≤ a := by
  rw [← not_lt, ← strLess_iff]
  simp

/-! ## `sort.Slice` by descending name -/

/-- The pod list as `upgradeCluster` scans it. -/
theorem sortSlice_perm (l : List Pod) :
    (sortSlice l (fun i j => strLess j.Name i.Name)).Perm l :=
  List.perm_insertionSort _ l

theorem mem_sortSlice (l : List Pod) (p : Pod) :
    p ∈ sortSlice l (fun i j => strLess j.Name i.Name) ↔ p ∈ l :=
  (sortSlice_perm l).mem_iff

/-- After `sort.Slice` every pod's name is at least the name of each pod after it. -/
theorem sortSlice_sorted (l : List Pod) :
    (sortSlice l (fun i j => strLess j.Name i.Name)).Sorted (fun a b => b.Name ≤ a.Name) := by
  have hrel : (fun a b : Pod => strLess a.Name b.Name = false) = (fun a b => b.Name ≤ a.Name) := by
    funext a b
    exact propext (strLess_eq_false_iff a.Name b.Name)
  haveI : IsTotal Pod (fun a b : Pod => strLess a.Name b.Name = false) := by
    rw [hrel]; exact ⟨fun a b => le_total b.Name a.Name⟩
  haveI : IsTrans Pod (fun a b : Pod => strLess a.Name b.Name = false) := by
    rw [hrel]; exact ⟨fun a b c hab hbc => le_trans hbc hab⟩
  have h := List.sorted_insertionSort (fun a b : Pod => strLess a.Name b.Name = false) l
  unfold sortSlice
  exact h.imp (fun {a b} hab => (strLess_eq_false_iff a.Name b.Name).mp hab)

theorem find_some_holds (f : Pod → Bool) (l : List Pod) (p : Pod) (h : l.find? f = some p) :
    f p = true :=
  List.find?_some h

/-- In a list sorted by descending name, the first pod satisfying a test has the greatest name
among the pods satisfying it. -/
theorem find_sorted_greatest (f : Pod → Bool) :
    ∀ (l : List Pod) (p : Pod), l.Sorted (fun a b => b.Name ≤ a.Name) → l.find? f = some p →
      ∀ q ∈ l, f q = true → q.Name ≤ p.Name
  | [], _, _, h => by simp at h
  | a :: l, p, hs, h => by
    intro q hq hfq
    rw [List.sorted_cons] at hs
    by_cases hfa : f a = true
    · rw [List.find?_cons_of_pos l hfa] at h
      cases h
      rcases List.mem_cons.mp hq with rfl | hq
      · exact le_refl _
      · exact hs.1 q hq
    · rw [List.find?_cons_of_neg l hfa] at h
      rcases List.mem_cons.mp hq with rfl | hq
      · exact absurd hfq hfa
      · exact find_sorted_greatest f l p hs.2 h q hq hfq

/-! ## The scan of `upgradeCluster` -/

theorem isStale_of_ok (pod : Pod) (t used : String) (h : GetPostgreSQLImageName pod = .ok used) :
    pod.isStale t = decide (used ≠ t) := by
  unfold Pod.isStale; rw [h]

theorem isStale_of_error (pod : Pod) (t : String) (e : Error)
    (h : GetPostgreSQLImageName pod = .error e) : pod.isStale t = false := by
  unfold Pod.isStale; rw [h]

/-- One step of the loop, by the kind of pod at its head. -/
theorem upgradeLoop_cons (r : ClusterReconciler) (c : Cluster) (t : String) (pod : Pod)
    (rest : List Pod) (idx : Nat) (m : Int) :
    upgradeLoop r c t (pod :: rest) idx m =
      if pod.isStale t = true then
        if c.Status.CurrentPrimary = pod.Name then upgradeLoop r c t rest (idx + 1) (idx : Int)
        else Sum.inl (upgradePod r c pod)
      else upgradeLoop r c t rest (idx + 1) m := by
  rw [upgradeLoop]
  cases h : GetPostgreSQLImageName pod with
  | error e => simp [isStale_of_error pod t e h]
  | ok used =>
    by_cases hu : used = t
    · simp [isStale_of_ok pod t used h, hu]
    · simp [isStale_of_ok pod t used h, hu]

/-- The loop returns from inside at the first stale pod that is not the current primary. -/
theorem upgradeLoop_of_find_some (r : ClusterReconciler) (c : Cluster) (t : String) :
    ∀ (l : List Pod) (idx : Nat) (m : Int) (p : Pod),
      l.find? (fun q => q.isStaleReplica c t) = some p →
      upgradeLoop r c t l idx m = Sum.inl (upgradePod r c p)
  | [], _, _, _, h => by simp at h
  | a :: l, idx, m, p, h => by
    rw [upgradeLoop_cons]
    by_cases hs : a.isStale t = true
    · by_cases hp : c.Status.CurrentPrimary = a.Name
      · have hfa : ¬ (a.isStaleReplica c t = true) := by simp [Pod.isStaleReplica, hp]
        rw [List.find?_cons_of_neg l hfa] at h
        simp only [hs, hp, if_true]
        exact upgradeLoop_of_find_some r c t l (idx + 1) idx p h
      · have hfa : a.isStaleReplica c t = true := by simp [Pod.isStaleReplica, hs, hp]
        rw [List.find?_cons_of_pos l hfa] at h
        cases h
        simp [hs, hp]
    · have hfa : ¬ (a.isStaleReplica c t = true) := by simp [Pod.isStaleReplica, hs]
      rw [List.find?_cons_of_neg l hfa] at h
      simp only [hs]
      exact upgradeLoop_of_find_some r c t l (idx + 1) m p h

/-- Without such a pod the loop runs to its end, and `masterIdx` is still `-1` exactly when it
was `-1` before and no pod scanned is stale. -/
theorem upgradeLoop_of_find_none (r : ClusterReconciler) (c : Cluster) (t : String) :
    ∀ (l : List Pod) (idx : Nat) (m : Int),
      l.find? (fun q => q.isStaleReplica c t) = none →
      ∃ m2 : Int, upgradeLoop r c t l idx m = Sum.inr m2 ∧
        (m2 = -1 ↔ (m = -1 ∧ ∀ q ∈ l, q.isStale t = false))
  | [], _, m, _ => ⟨m, by simp [upgradeLoop]⟩
  | a :: l, idx, m, h => by
    rw [upgradeLoop_cons]
    by_cases hs : a.isStale t = true
    · by_cases hp : c.Status.CurrentPrimary = a.Name
      · have hfa : ¬ (a.isStaleReplica c t = true) := by simp [Pod.isStaleReplica, hp]
        rw [List.find?_cons_of_neg l hfa] at h
        obtain ⟨m2, h1, h2⟩ := upgradeLoop_of_find_none r c t l (idx + 1) idx h
        refine ⟨m2, by simp [hs, hp, h1], ?_⟩
        constructor
        · intro hm
          have := (h2.mp hm).1
          omega
        · rintro ⟨_, hall⟩
          have := hall a (List.mem_cons_self a l)
          rw [hs] at this
          cases this
      · have hfa : a.isStaleReplica c t = true := by simp [Pod.isStaleReplica, hs, hp]
        rw [List.find?_cons_of_pos l hfa] at h
        cases h
    · have hfa : ¬ (a.isStaleReplica c t = true) := by simp [Pod.isStaleReplica, hs]
      rw [List.find?_cons_of_neg l hfa] at h
      obtain ⟨m2, h1, h2⟩ := upgradeLoop_of_find_none r c t l (idx + 1) m h
      refine ⟨m2, by simp [hs, h1], ?_⟩
      rw [h2]
      simp only [Bool.not_eq_true] at hs
      constructor
      · rintro ⟨hm, hall⟩
        exact ⟨hm, fun q hq => by
          rcases List.mem_cons.mp hq with rfl | hq
          · exact hs
          · exact hall q hq⟩
      · rintro ⟨hm, hall⟩
        exact ⟨hm, fun q hq => hall q (List.mem_cons_of_mem a hq)⟩

/-! ## `upgradeCluster`, case by case -/

theorem find_isStaleReplica_none (c : Cluster) (podList : PodList)
    (honly : ∀ p ∈ podList.Items, p.isStale c.GetImageName = true →
      p.Name = c.Status.CurrentPrimary) :
    (sortSlice podList.Items (fun i j => strLess j.Name i.Name)).find?
      (fun q => q.isStaleReplica c c.GetImageName) = none := by
  rw [List.find?_eq_none]
  intro q hq hf
  rw [mem_sortSlice] at hq
  simp only [Pod.isStaleReplica, Bool.and_eq_true, decide_eq_true_eq] at hf
  exact hf.2 (honly q hq hf.1).symm

/-- When the scan meets a stale pod that is not the current primary, `upgradeCluster` is the
`upgradePod` of the first such pod. -/
theorem upgradeCluster_of_find_some (r : ClusterReconciler) (c : Cluster) (podList : PodList)
    (st : PostgresqlStatusList) (p : Pod)
    (h : (sortSlice podList.Items (fun i j => strLess j.Name i.Name)).find?
      (fun q => q.isStaleReplica c c.GetImageName) = some p) :
    upgradeCluster r c podList st = upgradePod r c p := by
  unfold upgradeCluster
  simp only []
  rw [upgradeLoop_of_find_some r c c.GetImageName _ 0 (-1) p h]

/-- When no pod is stale, `upgradeCluster` does nothing and succeeds. -/
theorem upgradeCluster_of_none_stale (r : ClusterReconciler) (c : Cluster) (podList : PodList)
    (st : PostgresqlStatusList)
    (hnone : ∀ p ∈ podList.Items, p.isStale c.GetImageName = false) :
    upgradeCluster r c podList st = ⟨[], none⟩ := by
  have hfind := find_isStaleReplica_none c podList
    (fun p hp hs => by rw [hnone p hp] at hs; cases hs)
  obtain ⟨m2, h1, h2⟩ := upgradeLoop_of_find_none r c c.GetImageName _ 0 (-1) hfind
  have hm : m2 = -1 := h2.mpr ⟨rfl, fun q hq => hnone q ((mem_sortSlice _ _).mp hq)⟩
  unfold upgradeCluster
  simp only []
  rw [h1, hm]
  simp

/-- When the stale pods are all named as the current primary, and there is one, the outcome of
`upgradeCluster` is decided by the strategy and by entry 1 of the status snapshot. -/
theorem upgradeCluster_of_primary_only (r : ClusterReconciler) (c : Cluster)
    (podList : PodList) (st : PostgresqlStatusList)
    (honly : ∀ p ∈ podList.Items, p.isStale c.GetImageName = true →
      p.Name = c.Status.CurrentPrimary)
    (hsome : ∃ p ∈ podList.Items, p.isStale c.GetImageName = true) :
    upgradeCluster r c podList st =
      if c.GetMasterUpdateStrategy = MasterUpdateStrategy.MasterUpdateStrategyWait then
        ⟨[], none⟩
      else
        match st.Items[1]? with
        | none => ⟨[], some ErrorInconsistentClusterStatus⟩
        | some s =>
          if s.IsPrimary = true then ⟨[], some ErrorInconsistentClusterStatus⟩
          else ⟨[Call.setPrimaryInstance s.PodName], r.setPrimaryInstance c s.PodName⟩ := by
  have hfind := find_isStaleReplica_none c podList honly
  obtain ⟨m2, h1, h2⟩ := upgradeLoop_of_find_none r c c.GetImageName _ 0 (-1) hfind
  have hm : m2 ≠ -1 := by
    intro hm
    obtain ⟨p, hp, hs⟩ := hsome
    have := (h2.mp hm).2 p ((mem_sortSlice _ _).mpr hp)
    rw [hs] at this
    cases this
  unfold upgradeCluster
  simp only []
  rw [h1]
  simp only [hm, if_false]
  by_cases hw : c.GetMasterUpdateStrategy = MasterUpdateStrategy.MasterUpdateStrategyWait
  · simp [hw]
  · simp only [hw, if_false]
    by_cases hlen : st.Items.length < 2
    · have hget : st.Items[1]? = none := List.getElem?_eq_none (by omega)
      simp [hlen, hget]
    · have hget : st.Items[1]? = some (st.Items.get ⟨1, by omega⟩) := by
        rw [List.getElem?_eq_getElem (by omega)]
        rfl
      rw [hget]
      simp [hlen]

/-- Every invocation of `upgradeCluster` ends in one of four ways: the delete of a stale pod
that is not the current primary, nothing at all, the inconsistent-status error, or one status
update. -/
theorem upgradeCluster_cases (r : ClusterReconciler) (c : Cluster) (podList : PodList)
    (st : PostgresqlStatusList) :
    (∃ p ∈ podList.Items, p.isStaleReplica c c.GetImageName = true ∧
        upgradeCluster r c podList st = ⟨[Call.Delete (Object.Pod p)], r.Delete (Object.Pod p)⟩) ∨
      upgradeCluster r c podList st = ⟨[], none⟩ ∨
      upgradeCluster r c podList st = ⟨[], some ErrorInconsistentClusterStatus⟩ ∨
      ∃ name, upgradeCluster r c podList st =
        ⟨[Call.setPrimaryInstance name], r.setPrimaryInstance c name⟩ := by
  cases hfind : (sortSlice podList.Items (fun i j => strLess j.Name i.Name)).find?
      (fun q => q.isStaleReplica c c.GetImageName) with
  | some p =>
    left
    have hfp := find_some_holds (fun q : Pod => q.isStaleReplica c c.GetImageName) _ p hfind
    refine ⟨p, (mem_sortSlice _ _).mp (List.mem_of_find?_eq_some hfind), hfp, ?_⟩
    rw [upgradeCluster_of_find_some r c podList st p hfind]
    rfl
  | none =>
    right
    have honly : ∀ p ∈ podList.Items, p.isStale c.GetImageName = true →
        p.Name = c.Status.CurrentPrimary := by
      intro p hp hs
      by_contra hne
      have := List.find?_eq_none.mp hfind p ((mem_sortSlice _ _).mpr hp)
      apply this
      simp only [Pod.isStaleReplica, Bool.and_eq_true, decide_eq_true_eq]
      exact ⟨hs, fun h => hne h.symm⟩
    by_cases hsome : ∃ p ∈ podList.Items, p.isStale c.GetImageName = true
    · rw [upgradeCluster_of_primary_only r c podList st honly hsome]
      by_cases hw : c.GetMasterUpdateStrategy = MasterUpdateStrategy.MasterUpdateStrategyWait
      · simp [hw]
      · cases hget : st.Items[1]? with
        | none => simp [hw]
        | some s =>
          by_cases hp : s.IsPrimary = true
          · simp [hw, hp]
          · right; right
            exact ⟨s.PodName, by simp [hw, hp]⟩
    · left
      apply upgradeCluster_of_none_stale
      intro p hp
      by_contra hs
      exact hsome ⟨p, hp, by simpa using hs⟩

/-! ## Claims about `upgradeCluster` -/

/-- C1: if the pod names are pairwise distinct and some pod is stale (its image name can be read
and differs from the target image) and is not named as the current primary, then
`upgradeCluster` issues exactly one request, the delete of the stale non-primary pod of greatest
name (every other such pod has a strictly smaller name), issues no status update, and returns
the result of that delete. -/
theorem upgradeCluster_deletes_greatest_stale_replica (r : ClusterReconciler)
    (cluster : Cluster) (podList : PodList) (clusterStatus : PostgresqlStatusList)
    (hdistinct : (podList.Items.map Pod.Name).Nodup)
    (hstale : ∃ p ∈ podList.Items, p.isStale cluster.GetImageName = true ∧
      p.Name ≠ cluster.Status.CurrentPrimary) :
    ∃ p ∈ podList.Items,
      p.isStale cluster.GetImageName = true ∧ p.Name ≠ cluster.Status.CurrentPrimary ∧
      (∀ q ∈ podList.Items, q.isStale cluster.GetImageName = true →
        q.Name ≠ cluster.Status.CurrentPrimary → q ≠ p → q.Name < p.Name) ∧
      upgradeCluster r cluster podList clusterStatus =
        ⟨[Call.Delete (Object.Pod p)], r.Delete (Object.Pod p)⟩ := by
  obtain ⟨p0, hp0, hs0, hn0⟩ := hstale
  have hf0 : p0.isStaleReplica cluster cluster.GetImageName = true := by
    simp only [Pod.isStaleReplica, Bool.and_eq_true, decide_eq_true_eq]
    exact ⟨hs0, fun h => hn0 h.symm⟩
  cases hfind : (sortSlice podList.Items (fun i j => strLess j.Name i.Name)).find?
      (fun q => q.isStaleReplica cluster cluster.GetImageName) with
  | none =>
    exact absurd hf0 (List.find?_eq_none.mp hfind p0 ((mem_sortSlice _ _).mpr hp0))
  | some p =>
    have hp : p ∈ podList.Items := (mem_sortSlice _ _).mp (List.mem_of_find?_eq_some hfind)
    have hfp :=
      find_some_holds (fun q : Pod => q.isStaleReplica cluster cluster.GetImageName) _ p hfind
    simp only [Pod.isStaleReplica, Bool.and_eq_true, decide_eq_true_eq] at hfp
    refine ⟨p, hp, hfp.1, fun h => hfp.2 h.symm, ?_, ?_⟩
    · intro q hq hsq hnq hqp
      have hfq : q.isStaleReplica cluster cluster.GetImageName = true := by
        simp only [Pod.isStaleReplica, Bool.and_eq_true, decide_eq_true_eq]
        exact ⟨hsq, fun h => hnq h.symm⟩
      have hle := find_sorted_greatest _ _ p (sortSlice_sorted podList.Items) hfind q
        ((mem_sortSlice _ _).mpr hq) hfq
      refine lt_of_le_of_ne hle ?_
      intro hname
      exact hqp (List.inj_on_of_nodup_map hdistinct hq hp hname)
    · rw [upgradeCluster_of_find_some r cluster podList clusterStatus p hfind]
      rfl

/-- C1, at the example of the specification: pods `pg-1` (primary, `v1`), `pg-2` (`v1`) and
`pg-3` (`v2`) with target image `v2`. -/
theorem upgradeCluster_deletes_greatest_stale_replica_witness :
    (threePods.Items.map Pod.Name).Nodup ∧
    (∃ p ∈ threePods.Items,
      p.isStale (exampleCluster .MasterUpdateStrategyUnsupervised).GetImageName = true ∧
      p.Name ≠ (exampleCluster .MasterUpdateStrategyUnsupervised).Status.CurrentPrimary) ∧
    (∃ p ∈ threePods.Items,
      p.isStale (exampleCluster .MasterUpdateStrategyUnsupervised).GetImageName = true ∧
      p.Name ≠ (exampleCluster .MasterUpdateStrategyUnsupervised).Status.CurrentPrimary ∧
      (∀ q ∈ threePods.Items,
        q.isStale (exampleCluster .MasterUpdateStrategyUnsupervised).GetImageName = true →
        q.Name ≠ (exampleCluster .MasterUpdateStrategyUnsupervised).Status.CurrentPrimary →
        q ≠ p → q.Name < p.Name) ∧
      upgradeCluster okReconciler (exampleCluster .MasterUpdateStrategyUnsupervised) threePods
          goodSnapshot =
        ⟨[Call.Delete (Object.Pod p)], okReconciler.Delete (Object.Pod p)⟩) :=
  ⟨by decide, by decide,
    upgradeCluster_deletes_greatest_stale_replica okReconciler
      (exampleCluster .MasterUpdateStrategyUnsupervised) threePods goodSnapshot
      (by decide) (by decide)⟩

/-- The example of the specification, evaluated: only `pg-2` is deleted. -/
theorem upgradeCluster_threePods :
    upgradeCluster okReconciler (exampleCluster .MasterUpdateStrategyUnsupervised) threePods
        goodSnapshot =
      ⟨[Call.Delete (Object.Pod (examplePod "pg-2" "v1"))], none⟩ := by
  decide

/-- C2: whatever the cluster, the pod list and the status snapshot, every delete issued by
`upgradeCluster` is the delete of a pod of the list whose name differs from
`cluster.Status.CurrentPrimary`; the current primary is never deleted, also not in the
invocation that designates a new target primary. -/
theorem upgradeCluster_never_deletes_primary (r : ClusterReconciler) (cluster : Cluster)
    (podList : PodList) (clusterStatus : PostgresqlStatusList) (obj : Object)
    (hissued : Call.Delete obj ∈ (upgradeCluster r cluster podList clusterStatus).calls) :
    ∃ pod ∈ podList.Items, obj = Object.Pod pod ∧ pod.Name ≠ cluster.Status.CurrentPrimary := by
  rcases upgradeCluster_cases r cluster podList clusterStatus with
    ⟨p, hp, hf, heq⟩ | heq | heq | ⟨name, heq⟩
  · rw [heq] at hissued
    simp only [List.mem_singleton, Call.Delete.injEq] at hissued
    simp only [Pod.isStaleReplica, Bool.and_eq_true, decide_eq_true_eq] at hf
    exact ⟨p, hp, hissued, fun h => hf.2 h.symm⟩
  · rw [heq] at hissued; simp at hissued
  · rw [heq] at hissued; simp at hissued
  · rw [heq] at hissued; simp at hissued

/-- C2, at the pods `pg-1` (primary), `pg-2`, `pg-3`: the delete issued is that of `pg-2`. -/
theorem upgradeCluster_never_deletes_primary_witness :
    Call.Delete (Object.Pod (examplePod "pg-2" "v1")) ∈
      (upgradeCluster okReconciler (exampleCluster .MasterUpdateStrategyUnsupervised) threePods
        goodSnapshot).calls ∧
    ∃ pod ∈ threePods.Items, Object.Pod (examplePod "pg-2" "v1") = Object.Pod pod ∧
      pod.Name ≠ (exampleCluster .MasterUpdateStrategyUnsupervised).Status.CurrentPrimary :=
  ⟨by decide,
    upgradeCluster_never_deletes_primary okReconciler
      (exampleCluster .MasterUpdateStrategyUnsupervised) threePods goodSnapshot
      (Object.Pod (examplePod "pg-2" "v1")) (by decide)⟩

/-- C3: if a pod named as the current primary is stale, every stale pod is named as the current
primary, the strategy is Unsupervised, and the status snapshot has an entry 1 that is not marked
primary, then `upgradeCluster` issues exactly one request, the status update
`setPrimaryInstance` with the pod name of entry 1, issues no delete, and returns the result of
that update. -/
theorem upgradeCluster_switches_over_to_entry_one (r : ClusterReconciler) (cluster : Cluster)
    (podList : PodList) (clusterStatus : PostgresqlStatusList) (entry1 : PostgresqlStatus)
    (hprimary : ∃ p ∈ podList.Items, p.isStale cluster.GetImageName = true ∧
      p.Name = cluster.Status.CurrentPrimary)
    (honly : ∀ p ∈ podList.Items, p.isStale cluster.GetImageName = true →
      p.Name = cluster.Status.CurrentPrimary)
    (hstrategy : cluster.GetMasterUpdateStrategy =
      MasterUpdateStrategy.MasterUpdateStrategyUnsupervised)
    (hentry : clusterStatus.Items[1]? = some entry1)
    (hreplica : entry1.IsPrimary = false) :
    upgradeCluster r cluster podList clusterStatus =
      ⟨[Call.setPrimaryInstance entry1.PodName],
        r.setPrimaryInstance cluster entry1.PodName⟩ := by
  obtain ⟨p, hp, hs, _⟩ := hprimary
  rw [upgradeCluster_of_primary_only r cluster podList clusterStatus honly ⟨p, hp, hs⟩,
    hstrategy, hentry]
  simp [hreplica]

/-- C3, at the example of the specification: the only pod is the primary `pg-1` on image `v1`,
the target image is `v2`, and entry 1 of the snapshot is the replica `pg-2`. -/
theorem upgradeCluster_switches_over_to_entry_one_witness :
    (∃ p ∈ primaryOnly.Items,
      p.isStale (exampleCluster .MasterUpdateStrategyUnsupervised).GetImageName = true ∧
      p.Name = (exampleCluster .MasterUpdateStrategyUnsupervised).Status.CurrentPrimary) ∧
    (∀ p ∈ primaryOnly.Items,
      p.isStale (exampleCluster .MasterUpdateStrategyUnsupervised).GetImageName = true →
      p.Name = (exampleCluster .MasterUpdateStrategyUnsupervised).Status.CurrentPrimary) ∧
    (exampleCluster .MasterUpdateStrategyUnsupervised).GetMasterUpdateStrategy =
      MasterUpdateStrategy.MasterUpdateStrategyUnsupervised ∧
    goodSnapshot.Items[1]? = some ⟨"pg-2", "7000", false, "100", "100"⟩ ∧
    upgradeCluster okReconciler (exampleCluster .MasterUpdateStrategyUnsupervised) primaryOnly
        goodSnapshot =
      ⟨[Call.setPrimaryInstance "pg-2"],
        okReconciler.setPrimaryInstance (exampleCluster .MasterUpdateStrategyUnsupervised)
          "pg-2"⟩ :=
  ⟨by decide, by decide, by decide, by decide,
    upgradeCluster_switches_over_to_entry_one okReconciler
      (exampleCluster .MasterUpdateStrategyUnsupervised) primaryOnly goodSnapshot
      ⟨"pg-2", "7000", false, "100", "100"⟩ (by decide) (by decide) (by decide) (by decide)
      (by decide)⟩

/-- C4: if a pod named as the current primary is stale, every stale pod is named as the current
primary, the strategy is Unsupervised, and the status snapshot has fewer than two entries or its
entry 1 is marked primary, then `upgradeCluster` returns `ErrorInconsistentClusterStatus` and
issues no request at all, neither a delete nor a status update. -/
theorem upgradeCluster_inconsistent_status (r : ClusterReconciler) (cluster : Cluster)
    (podList : PodList) (clusterStatus : PostgresqlStatusList)
    (hprimary : ∃ p ∈ podList.Items, p.isStale cluster.GetImageName = true ∧
      p.Name = cluster.Status.CurrentPrimary)
    (honly : ∀ p ∈ podList.Items, p.isStale cluster.GetImageName = true →
      p.Name = cluster.Status.CurrentPrimary)
    (hstrategy : cluster.GetMasterUpdateStrategy =
      MasterUpdateStrategy.MasterUpdateStrategyUnsupervised)
    (hsnapshot : clusterStatus.Items.length < 2 ∨
      ∃ entry1, clusterStatus.Items[1]? = some entry1 ∧ entry1.IsPrimary = true) :
    upgradeCluster r cluster podList clusterStatus =
      ⟨[], some ErrorInconsistentClusterStatus⟩ := by
  obtain ⟨p, hp, hs, _⟩ := hprimary
  rw [upgradeCluster_of_primary_only r cluster podList clusterStatus honly ⟨p, hp, hs⟩,
    hstrategy]
  rcases hsnapshot with hlen | ⟨entry1, hentry, hprim⟩
  · have hget : clusterStatus.Items[1]? = none := List.getElem?_eq_none (by omega)
    simp [hget]
  · simp [hentry, hprim]

/-- C4, with only the primary `pg-1` stale and a snapshot whose entry 1 is marked primary. -/
theorem upgradeCluster_inconsistent_status_witness :
    (∃ p ∈ primaryOnly.Items,
      p.isStale (exampleCluster .MasterUpdateStrategyUnsupervised).GetImageName = true ∧
      p.Name = (exampleCluster .MasterUpdateStrategyUnsupervised).Status.CurrentPrimary) ∧
    (∀ p ∈ primaryOnly.Items,
      p.isStale (exampleCluster .MasterUpdateStrategyUnsupervised).GetImageName = true →
      p.Name = (exampleCluster .MasterUpdateStrategyUnsupervised).Status.CurrentPrimary) ∧
    (exampleCluster .MasterUpdateStrategyUnsupervised).GetMasterUpdateStrategy =
      MasterUpdateStrategy.MasterUpdateStrategyUnsupervised ∧
    (twoPrimariesSnapshot.Items.length < 2 ∨
      ∃ entry1, twoPrimariesSnapshot.Items[1]? = some entry1 ∧ entry1.IsPrimary = true) ∧
    upgradeCluster okReconciler (exampleCluster .MasterUpdateStrategyUnsupervised) primaryOnly
        twoPrimariesSnapshot =
      ⟨[], some ErrorInconsistentClusterStatus⟩ :=
  ⟨by decide, by decide, by decide, Or.inr ⟨⟨"pg-2", "7000", true, "", ""⟩, by decide, rfl⟩,
    upgradeCluster_inconsistent_status okReconciler
      (exampleCluster .MasterUpdateStrategyUnsupervised) primaryOnly twoPrimariesSnapshot
      (by decide) (by decide) (by decide)
      (Or.inr ⟨⟨"pg-2", "7000", true, "", ""⟩, by decide, rfl⟩)⟩

/-- C5: if a pod named as the current primary is stale, every stale pod is named as the current
primary, and the strategy is `MasterUpdateStrategyWait`, then for every status snapshot
`upgradeCluster` returns success and issues no request, neither a delete nor a status
update. -/
theorem upgradeCluster_waits_for_user (r : ClusterReconciler) (cluster : Cluster)
    (podList : PodList) (clusterStatus : PostgresqlStatusList)
    (hprimary : ∃ p ∈ podList.Items, p.isStale cluster.GetImageName = true ∧
      p.Name = cluster.Status.CurrentPrimary)
    (honly : ∀ p ∈ podList.Items, p.isStale cluster.GetImageName = true →
      p.Name = cluster.Status.CurrentPrimary)
    (hstrategy : cluster.GetMasterUpdateStrategy =
      MasterUpdateStrategy.MasterUpdateStrategyWait) :
    upgradeCluster r cluster podList clusterStatus = ⟨[], none⟩ := by
  obtain ⟨p, hp, hs, _⟩ := hprimary
  rw [upgradeCluster_of_primary_only r cluster podList clusterStatus honly ⟨p, hp, hs⟩,
    hstrategy]
  simp

/-- C5, with only the primary `pg-1` stale, under the Wait strategy. -/
theorem upgradeCluster_waits_for_user_witness :
    (∃ p ∈ primaryOnly.Items,
      p.isStale (exampleCluster .MasterUpdateStrategyWait).GetImageName = true ∧
      p.Name = (exampleCluster .MasterUpdateStrategyWait).Status.CurrentPrimary) ∧
    (∀ p ∈ primaryOnly.Items,
      p.isStale (exampleCluster .MasterUpdateStrategyWait).GetImageName = true →
      p.Name = (exampleCluster .MasterUpdateStrategyWait).Status.CurrentPrimary) ∧
    (exampleCluster .MasterUpdateStrategyWait).GetMasterUpdateStrategy =
      MasterUpdateStrategy.MasterUpdateStrategyWait ∧
    upgradeCluster okReconciler (exampleCluster .MasterUpdateStrategyWait) primaryOnly
      goodSnapshot = ⟨[], none⟩ :=
  ⟨by decide, by decide, by decide,
    upgradeCluster_waits_for_user okReconciler (exampleCluster .MasterUpdateStrategyWait)
      primaryOnly goodSnapshot (by decide) (by decide) (by decide)⟩

/-- C6: whatever the cluster, the pod list and the status snapshot, one invocation of
`upgradeCluster` issues at most one delete and at most one status update, and never both: the
deletes and status updates issued number at most one together. -/
theorem upgradeCluster_at_most_one_request (r : ClusterReconciler) (cluster : Cluster)
    (podList : PodList) (clusterStatus : PostgresqlStatusList) :
    (upgradeCluster r cluster podList clusterStatus).calls.countP Call.isDelete ≤ 1 ∧
    (upgradeCluster r cluster podList clusterStatus).calls.countP Call.isStatusUpdate ≤ 1 ∧
    (upgradeCluster r cluster podList clusterStatus).calls.countP Call.isDelete +
      (upgradeCluster r cluster podList clusterStatus).calls.countP Call.isStatusUpdate ≤ 1 := by
  rcases upgradeCluster_cases r cluster podList clusterStatus with
    ⟨p, _, _, heq⟩ | heq | heq | ⟨name, heq⟩ <;>
  · rw [heq]
    simp [List.countP_cons, Call.isDelete, Call.isStatusUpdate]

/-- C7: if every pod of the list runs the cluster's target image, then for every strategy and
every status snapshot `upgradeCluster` returns success and issues no request, neither a delete
nor a status update. -/
theorem upgradeCluster_up_to_date (r : ClusterReconciler) (cluster : Cluster)
    (podList : PodList) (clusterStatus : PostgresqlStatusList)
    (hall : ∀ p ∈ podList.Items, GetPostgreSQLImageName p = .ok cluster.GetImageName) :
    upgradeCluster r cluster podList clusterStatus = ⟨[], none⟩ := by
  apply upgradeCluster_of_none_stale
  intro p hp
  rw [isStale_of_ok p _ _ (hall p hp)]
  simp

/-- C7, with three pods all on the target image `v2`. -/
theorem upgradeCluster_up_to_date_witness :
    (∀ p ∈ upToDatePods.Items, GetPostgreSQLImageName p =
      .ok (exampleCluster .MasterUpdateStrategyUnsupervised).GetImageName) ∧
    upgradeCluster okReconciler (exampleCluster .MasterUpdateStrategyUnsupervised) upToDatePods
      goodSnapshot = ⟨[], none⟩ :=
  ⟨by decide,
    upgradeCluster_up_to_date okReconciler (exampleCluster .MasterUpdateStrategyUnsupervised)
      upToDatePods goodSnapshot (by decide)⟩

/-! ## The sacrificial pod -/

theorem getSacrificialPod_eq_none (l : List Pod) : getSacrificialPod l = none ↔ l = [] := by
  cases l with
  | nil => simp [getSacrificialPod]
  | cons a l =>
    simp only [getSacrificialPod, reduceCtorEq, iff_false]
    cases getSacrificialPod l with
    | none => simp
    | some best => by_cases h : strLess a.Name best.Name = true <;> simp [h]

/-- The pod chosen belongs to the list and no pod of the list has a greater name. -/
theorem getSacrificialPod_greatest :
    ∀ (l : List Pod) (p : Pod), getSacrificialPod l = some p →
      p ∈ l ∧ ∀ q ∈ l, q.Name ≤ p.Name
  | [], _, h => by simp [getSacrificialPod] at h
  | a :: l, p, h => by
    rw [getSacrificialPod] at h
    cases hrest : getSacrificialPod l with
    | none =>
      rw [hrest] at h
      simp only [Option.some.injEq] at h
      subst h
      have hl : l = [] := (getSacrificialPod_eq_none l).mp hrest
      subst hl
      simp
    | some best =>
      rw [hrest] at h
      obtain ⟨hmem, hmax⟩ := getSacrificialPod_greatest l best hrest
      by_cases hlt : strLess a.Name best.Name = true
      · simp only [hlt, if_true, Option.some.injEq] at h
        subst h
        refine ⟨List.mem_cons_of_mem a hmem, fun q hq => ?_⟩
        rcases List.mem_cons.mp hq with rfl | hq
        · exact le_of_lt ((strLess_iff _ _).mp hlt)
        · exact hmax q hq
      · simp only [hlt, Bool.false_eq_true, if_false, Option.some.injEq] at h
        subst h
        have hle : best.Name ≤ a.Name :=
          (strLess_eq_false_iff _ _).mp (by simpa using hlt)
        refine ⟨List.mem_cons_self a l, fun q hq => ?_⟩
        rcases List.mem_cons.mp hq with rfl | hq
        · exact le_refl _
        · exact le_trans (hmax q hq) hle

/-- The requests of `scaleDownCluster` once a sacrificial pod is chosen: the delete of that pod,
followed by at most the delete of its storage claim. -/
theorem scaleDownCluster_calls_of_some (r : ClusterReconciler) (cluster : Cluster)
    (childPods : PodList) (p : Pod) (h : getSacrificialPod childPods.Items = some p) :
    (scaleDownCluster r cluster childPods).calls = [Call.Delete (Object.Pod p)] ∨
    (scaleDownCluster r cluster childPods).calls =
      [Call.Delete (Object.Pod p),
        Call.Delete (Object.PersistentVolumeClaim p.Name p.Namespace)] := by
  unfold scaleDownCluster
  rw [h]
  simp only []
  cases r.Delete (Object.Pod p) with
  | some err => left; rfl
  | none =>
    by_cases hs : cluster.IsUsingPersistentStorage = true
    · right
      simp only [hs, Bool.not_true, Bool.false_eq_true, if_false]
      cases r.Delete (Object.PersistentVolumeClaim p.Name p.Namespace) <;> rfl
    · left
      simp [hs]

/-! ## Claims about `scaleDownCluster` -/

/-- `scaleDownCluster` is `scaleDownClusterWith` at the selector modelled from the spec. -/
theorem scaleDownCluster_eq_with (r : ClusterReconciler) (cluster : Cluster)
    (childPods : PodList) :
    scaleDownCluster r cluster childPods =
      scaleDownClusterWith getSacrificialPod r cluster childPods :=
  rfl

/-- Whatever the selector, `scaleDownCluster` does nothing exactly when the selector finds no
pod: once a pod is chosen its delete is issued. -/
theorem scaleDownClusterWith_noop_iff (select : List Pod → Option Pod) (r : ClusterReconciler)
    (cluster : Cluster) (childPods : PodList) :
    scaleDownClusterWith select r cluster childPods = ⟨[], none⟩ ↔
      select childPods.Items = none := by
  unfold scaleDownClusterWith
  cases select childPods.Items with
  | none => simp
  | some p =>
    simp only [reduceCtorEq, iff_false]
    cases r.Delete (Object.Pod p) with
    | some e => simp
    | none =>
      by_cases hs : cluster.IsUsingPersistentStorage = true
      · simp only [hs, Bool.not_true, Bool.false_eq_true, if_false]
        cases r.Delete (Object.PersistentVolumeClaim p.Name p.Namespace) <;> simp
      · simp [hs]

/-- C8, as stated, fails at the three pods `pg-1`, `pg-2`, `pg-3` with a target member count of
three. Whatever function of the pod list `getSacrificialPod` is, if scaling these pods down to
a target of two issues any request, then with a target of three `scaleDownCluster` is not a
no-op on them either, because line 27 hands the selector the pod list only. With the selector
of the spec, `pg-3` and its storage claim are deleted. -/
theorem scaleDownCluster_at_target_deletes :
    upToDatePods.Items.length ≤ (exampleCluster .MasterUpdateStrategyWait).Spec.Instances ∧
    twoInstanceCluster.Spec.Instances < upToDatePods.Items.length ∧
    (∀ (select : List Pod → Option Pod) (r : ClusterReconciler),
      (scaleDownClusterWith select r twoInstanceCluster upToDatePods).calls ≠ [] →
      scaleDownClusterWith select r (exampleCluster .MasterUpdateStrategyWait) upToDatePods ≠
        ⟨[], none⟩) ∧
    scaleDownCluster okReconciler (exampleCluster .MasterUpdateStrategyWait) upToDatePods =
      ⟨[Call.Delete (Object.Pod (examplePod "pg-3" "v2")),
        Call.Delete (Object.PersistentVolumeClaim "pg-3" "default")], none⟩ := by
  refine ⟨by decide, by decide, ?_, by decide⟩
  intro select r hcalls hnoop
  apply hcalls
  have hnone := (scaleDownClusterWith_noop_iff select r _ upToDatePods).mp hnoop
  rw [(scaleDownClusterWith_noop_iff select r twoInstanceCluster upToDatePods).mpr hnone]

/-- C8, amended: whatever function of the pod list `getSacrificialPod` is, `scaleDownCluster`
is a no-op, returning success without any delete request, exactly when that function finds no
pod in the member list; whether it is a no-op is the same for every cluster, so it does not
depend on the target member count. -/
theorem scaleDownCluster_noop_iff_no_candidate (select : List Pod → Option Pod)
    (r : ClusterReconciler) (cluster : Cluster) (childPods : PodList) :
    (scaleDownClusterWith select r cluster childPods = ⟨[], none⟩ ↔
      select childPods.Items = none) ∧
    (∀ other : Cluster,
      scaleDownClusterWith select r other childPods = ⟨[], none⟩ ↔
        scaleDownClusterWith select r cluster childPods = ⟨[], none⟩) := by
  refine ⟨scaleDownClusterWith_noop_iff select r cluster childPods, fun other => ?_⟩
  rw [scaleDownClusterWith_noop_iff, scaleDownClusterWith_noop_iff]

/-- C9: if the member list is longer than the cluster's target member count, then
`scaleDownCluster` issues exactly one pod delete, and the pod deleted is a member of the list
whose name is the maximum of the names in the list. -/
theorem scaleDownCluster_deletes_greatest (r : ClusterReconciler) (cluster : Cluster)
    (childPods : PodList) (hmany : cluster.Spec.Instances < childPods.Items.length) :
    ∃ p ∈ childPods.Items, (∀ q ∈ childPods.Items, q.Name ≤ p.Name) ∧
      (scaleDownCluster r cluster childPods).calls.filter Call.isPodDelete =
        [Call.Delete (Object.Pod p)] := by
  cases hs : getSacrificialPod childPods.Items with
  | none =>
    have := (getSacrificialPod_eq_none _).mp hs
    rw [this] at hmany
    simp at hmany
  | some p =>
    obtain ⟨hmem, hmax⟩ := getSacrificialPod_greatest _ p hs
    refine ⟨p, hmem, hmax, ?_⟩
    rcases scaleDownCluster_calls_of_some r cluster childPods p hs with hc | hc <;>
    · rw [hc]
      simp [List.filter_cons, Call.isPodDelete]

/-- C9, with two wanted instances and the pods `pg-1`, `pg-2`, `pg-3`. -/
theorem scaleDownCluster_deletes_greatest_witness :
    twoInstanceCluster.Spec.Instances < upToDatePods.Items.length ∧
    ∃ p ∈ upToDatePods.Items, (∀ q ∈ upToDatePods.Items, q.Name ≤ p.Name) ∧
      (scaleDownCluster okReconciler twoInstanceCluster upToDatePods).calls.filter
          Call.isPodDelete =
        [Call.Delete (Object.Pod p)] :=
  ⟨by decide,
    scaleDownCluster_deletes_greatest okReconciler twoInstanceCluster upToDatePods (by decide)⟩

/-- The scale-down from three pods to two, evaluated: `pg-3` goes, then its storage claim. -/
theorem scaleDownCluster_threePods :
    scaleDownCluster okReconciler twoInstanceCluster upToDatePods =
      ⟨[Call.Delete (Object.Pod (examplePod "pg-3" "v2")),
        Call.Delete (Object.PersistentVolumeClaim "pg-3" "default")], none⟩ := by
  decide

/-- C10: if the pod delete issued by `scaleDownCluster` fails, then that delete is the only
request issued, so no storage-claim delete is attempted, whether or not the cluster uses
durable storage, and `scaleDownCluster` returns the error of that delete. -/
theorem scaleDownCluster_pod_delete_fails (r : ClusterReconciler) (cluster : Cluster)
    (childPods : PodList) (pod : Pod) (err : Error)
    (hissued : Call.Delete (Object.Pod pod) ∈ (scaleDownCluster r cluster childPods).calls)
    (hfails : r.Delete (Object.Pod pod) = some err) :
    scaleDownCluster r cluster childPods = ⟨[Call.Delete (Object.Pod pod)], some err⟩ := by
  cases hs : getSacrificialPod childPods.Items with
  | none =>
    unfold scaleDownCluster at hissued
    rw [hs] at hissued
    simp at hissued
  | some p =>
    have hpod : pod = p := by
      rcases scaleDownCluster_calls_of_some r cluster childPods p hs with hc | hc <;>
      · rw [hc] at hissued
        simpa using hissued
    subst hpod
    unfold scaleDownCluster
    rw [hs]
    simp only []
    rw [hfails]

/-- C10, with a store that refuses pod deletes and a cluster that uses durable storage. -/
theorem scaleDownCluster_pod_delete_fails_witness :
    Call.Delete (Object.Pod (examplePod "pg-3" "v2")) ∈
      (scaleDownCluster refusingReconciler (exampleCluster .MasterUpdateStrategyWait)
        upToDatePods).calls ∧
    refusingReconciler.Delete (Object.Pod (examplePod "pg-3" "v2")) =
      some ⟨"pod delete refused"⟩ ∧
    scaleDownCluster refusingReconciler (exampleCluster .MasterUpdateStrategyWait)
        upToDatePods =
      ⟨[Call.Delete (Object.Pod (examplePod "pg-3" "v2"))], some ⟨"pod delete refused"⟩⟩ :=
  ⟨by decide, by decide,
    scaleDownCluster_pod_delete_fails refusingReconciler
      (exampleCluster .MasterUpdateStrategyWait) upToDatePods (examplePod "pg-3" "v2")
      ⟨"pod delete refused"⟩ (by decide) (by decide)⟩

/-- C11: if the cluster does not use durable storage, then for every member list
`scaleDownCluster` issues no storage-claim delete, and when the delete of the pod it chose
succeeds it returns success. -/
theorem scaleDownCluster_without_storage (r : ClusterReconciler) (cluster : Cluster)
    (childPods : PodList) (hephemeral : cluster.IsUsingPersistentStorage = false) :
    (scaleDownCluster r cluster childPods).calls.countP Call.isClaimDelete = 0 ∧
    (∀ pod, Call.Delete (Object.Pod pod) ∈ (scaleDownCluster r cluster childPods).calls →
      r.Delete (Object.Pod pod) = none → (scaleDownCluster r cluster childPods).err = none) := by
  cases hs : getSacrificialPod childPods.Items with
  | none =>
    unfold scaleDownCluster
    rw [hs]
    simp
  | some p =>
    cases hd : r.Delete (Object.Pod p) with
    | some e =>
      have heq : scaleDownCluster r cluster childPods =
          ⟨[Call.Delete (Object.Pod p)], some e⟩ := by
        unfold scaleDownCluster
        rw [hs]
        simp only []
        rw [hd]
      rw [heq]
      refine ⟨by simp [List.countP_cons, Call.isClaimDelete], ?_⟩
      intro pod hpod hok
      simp only [List.mem_singleton, Call.Delete.injEq, Object.Pod.injEq] at hpod
      rw [hpod, hd] at hok
      cases hok
    | none =>
      have heq : scaleDownCluster r cluster childPods =
          ⟨[Call.Delete (Object.Pod p)], none⟩ := by
        unfold scaleDownCluster
        rw [hs]
        simp only []
        rw [hd]
        simp [hephemeral]
      rw [heq]
      exact ⟨by simp [List.countP_cons, Call.isClaimDelete], fun _ _ _ => rfl⟩

/-- C11, with a cluster without durable storage and the pods `pg-1`, `pg-2`, `pg-3`. -/
theorem scaleDownCluster_without_storage_witness :
    ephemeralCluster.IsUsingPersistentStorage = false ∧
    (scaleDownCluster okReconciler ephemeralCluster upToDatePods).calls.countP
      Call.isClaimDelete = 0 ∧
    (∀ pod, Call.Delete (Object.Pod pod) ∈
        (scaleDownCluster okReconciler ephemeralCluster upToDatePods).calls →
      okReconciler.Delete (Object.Pod pod) = none →
      (scaleDownCluster okReconciler ephemeralCluster upToDatePods).err = none) :=
  ⟨by decide, scaleDownCluster_without_storage okReconciler ephemeralCluster upToDatePods
    (by decide)⟩

/-- The scale-down without durable storage, evaluated: the pod `pg-3` goes, nothing else. -/
theorem scaleDownCluster_ephemeral :
    scaleDownCluster okReconciler ephemeralCluster upToDatePods =
      ⟨[Call.Delete (Object.Pod (examplePod "pg-3" "v2"))], none⟩ := by
  decide

/-- C12: if the cluster uses durable storage and the delete of the sacrificial pod succeeds,
then `scaleDownCluster` issues exactly two requests, the pod delete and after it the delete of
the storage claim that has the name and the namespace of that pod; it returns success when the
claim delete succeeds, and otherwise the error whose message is
"scaling down node (pvc) ", the pod name, ": " and the message of the cause. -/
theorem scaleDownCluster_with_storage (r : ClusterReconciler) (cluster : Cluster)
    (childPods : PodList) (pod : Pod)
    (hdurable : cluster.IsUsingPersistentStorage = true)
    (hissued : Call.Delete (Object.Pod pod) ∈ (scaleDownCluster r cluster childPods).calls)
    (hdeleted : r.Delete (Object.Pod pod) = none) :
    (scaleDownCluster r cluster childPods).calls =
      [Call.Delete (Object.Pod pod),
        Call.Delete (Object.PersistentVolumeClaim pod.Name pod.Namespace)] ∧
    (scaleDownCluster r cluster childPods).err =
      match r.Delete (Object.PersistentVolumeClaim pod.Name pod.Namespace) with
      | none => none
      | some cause =>
        some ⟨"scaling down node (pvc) " ++ pod.Name ++ ": " ++ cause.msg⟩ := by
  cases hs : getSacrificialPod childPods.Items with
  | none =>
    unfold scaleDownCluster at hissued
    rw [hs] at hissued
    simp at hissued
  | some p =>
    have hpod : pod = p := by
      rcases scaleDownCluster_calls_of_some r cluster childPods p hs with hc | hc <;>
      · rw [hc] at hissued
        simpa using hissued
    subst hpod
    unfold scaleDownCluster
    rw [hs]
    simp only []
    rw [hdeleted]
    simp only [hdurable, Bool.not_true, Bool.false_eq_true, if_false]
    cases r.Delete (Object.PersistentVolumeClaim pod.Name pod.Namespace) <;> simp

/-- C12, with a store that refuses the claim delete: the pod `pg-3` is deleted, then the delete
of the claim `pg-3` is issued, and the error returned names the pod. -/
theorem scaleDownCluster_with_storage_witness :
    twoInstanceCluster.IsUsingPersistentStorage = true ∧
    Call.Delete (Object.Pod (examplePod "pg-3" "v2")) ∈
      (scaleDownCluster claimRefusingReconciler twoInstanceCluster upToDatePods).calls ∧
    claimRefusingReconciler.Delete (Object.Pod (examplePod "pg-3" "v2")) = none ∧
    (scaleDownCluster claimRefusingReconciler twoInstanceCluster upToDatePods).calls =
      [Call.Delete (Object.Pod (examplePod "pg-3" "v2")),
        Call.Delete (Object.PersistentVolumeClaim (examplePod "pg-3" "v2").Name
          (examplePod "pg-3" "v2").Namespace)] ∧
    (scaleDownCluster claimRefusingReconciler twoInstanceCluster upToDatePods).err =
      match claimRefusingReconciler.Delete
        (Object.PersistentVolumeClaim (examplePod "pg-3" "v2").Name
          (examplePod "pg-3" "v2").Namespace) with
      | none => none
      | some cause =>
        some ⟨"scaling down node (pvc) " ++ (examplePod "pg-3" "v2").Name ++ ": " ++
          cause.msg⟩ :=
  ⟨by decide, by decide, by decide,
    scaleDownCluster_with_storage claimRefusingReconciler twoInstanceCluster upToDatePods
      (examplePod "pg-3" "v2") (by decide) (by decide) (by decide)⟩

/-- The scale-down with a refused claim delete, evaluated. -/
theorem scaleDownCluster_claim_refused :
    scaleDownCluster claimRefusingReconciler twoInstanceCluster upToDatePods =
      ⟨[Call.Delete (Object.Pod (examplePod "pg-3" "v2")),
        Call.Delete (Object.PersistentVolumeClaim "pg-3" "default")],
        some ⟨"scaling down node (pvc) pg-3: claim delete refused"⟩⟩ := by
  decide

/-! ## Errors of the collaborators -/

/-- Every invocation of `scaleDownCluster` ends in one of five ways. -/
theorem scaleDownCluster_cases (r : ClusterReconciler) (cluster : Cluster)
    (childPods : PodList) :
    scaleDownCluster r cluster childPods = ⟨[], none⟩ ∨
    (∃ p e, r.Delete (Object.Pod p) = some e ∧
      scaleDownCluster r cluster childPods = ⟨[Call.Delete (Object.Pod p)], some e⟩) ∨
    (∃ p, r.Delete (Object.Pod p) = none ∧
      scaleDownCluster r cluster childPods = ⟨[Call.Delete (Object.Pod p)], none⟩) ∨
    (∃ p e, r.Delete (Object.Pod p) = none ∧
      r.Delete (Object.PersistentVolumeClaim p.Name p.Namespace) = some e ∧
      scaleDownCluster r cluster childPods =
        ⟨[Call.Delete (Object.Pod p),
          Call.Delete (Object.PersistentVolumeClaim p.Name p.Namespace)],
          some ⟨"scaling down node (pvc) " ++ p.Name ++ ": " ++ e.msg⟩⟩) ∨
    (∃ p, r.Delete (Object.Pod p) = none ∧
      r.Delete (Object.PersistentVolumeClaim p.Name p.Namespace) = none ∧
      scaleDownCluster r cluster childPods =
        ⟨[Call.Delete (Object.Pod p),
          Call.Delete (Object.PersistentVolumeClaim p.Name p.Namespace)], none⟩) := by
  unfold scaleDownCluster
  cases getSacrificialPod childPods.Items with
  | none => left; rfl
  | some p =>
    right
    simp only []
    cases hd : r.Delete (Object.Pod p) with
    | some e => left; exact ⟨p, e, hd, rfl⟩
    | none =>
      right
      by_cases hs : cluster.IsUsingPersistentStorage = true
      · right
        simp only [hs, Bool.not_true, Bool.false_eq_true, if_false]
        cases hc : r.Delete (Object.PersistentVolumeClaim p.Name p.Namespace) with
        | some e => left; exact ⟨p, e, hd, hc, rfl⟩
        | none => right; exact ⟨p, hd, hc, rfl⟩
      · left
        refine ⟨p, hd, ?_⟩
        simp [hs]

/-- C13, as stated, fails twice. The error of a refused storage-claim delete comes back under
another message, and the failed image lookup of `pg-1` is not returned at all. -/
theorem errors_not_all_returned_unchanged :
    (claimRefusingReconciler.Delete (Object.PersistentVolumeClaim "pg-3" "default") =
        some ⟨"claim delete refused"⟩ ∧
      Call.Delete (Object.PersistentVolumeClaim "pg-3" "default") ∈
        (scaleDownCluster claimRefusingReconciler twoInstanceCluster upToDatePods).calls ∧
      (scaleDownCluster claimRefusingReconciler twoInstanceCluster upToDatePods).err =
        some ⟨"scaling down node (pvc) pg-3: claim delete refused"⟩ ∧
      (scaleDownCluster claimRefusingReconciler twoInstanceCluster upToDatePods).err ≠
        some ⟨"claim delete refused"⟩) ∧
    (unreadablePod "pg-1" ∈ unreadablePrimaryPods.Items ∧
      GetPostgreSQLImageName (unreadablePod "pg-1") = .error ⟨"no postgres container"⟩ ∧
      upgradeCluster okReconciler (exampleCluster .MasterUpdateStrategyUnsupervised)
        unreadablePrimaryPods goodSnapshot = ⟨[], none⟩) := by
  decide

/-- C13, amended: in `scaleDownCluster` and `upgradeCluster` the error of a failing pod delete
and of a failing status update is returned unchanged; the error of a failing storage-claim
delete is returned inside a new error whose message is "scaling down node (pvc) ", the pod
name, ": " and the message of the cause; the error of a failing image-name lookup is not
returned: `upgradeCluster` returns nil, `ErrorInconsistentClusterStatus`, or the answer to the
one request it issued. -/
theorem errors_of_collaborators (r : ClusterReconciler) (cluster : Cluster)
    (childPods podList : PodList) (clusterStatus : PostgresqlStatusList) :
    (∀ pod e, Call.Delete (Object.Pod pod) ∈ (scaleDownCluster r cluster childPods).calls →
      r.Delete (Object.Pod pod) = some e →
      (scaleDownCluster r cluster childPods).err = some e) ∧
    (∀ name ns e,
      Call.Delete (Object.PersistentVolumeClaim name ns) ∈
        (scaleDownCluster r cluster childPods).calls →
      r.Delete (Object.PersistentVolumeClaim name ns) = some e →
      (scaleDownCluster r cluster childPods).err =
        some ⟨"scaling down node (pvc) " ++ name ++ ": " ++ e.msg⟩) ∧
    (∀ pod e,
      Call.Delete (Object.Pod pod) ∈ (upgradeCluster r cluster podList clusterStatus).calls →
      r.Delete (Object.Pod pod) = some e →
      (upgradeCluster r cluster podList clusterStatus).err = some e) ∧
    (∀ name e,
      Call.setPrimaryInstance name ∈ (upgradeCluster r cluster podList clusterStatus).calls →
      r.setPrimaryInstance cluster name = some e →
      (upgradeCluster r cluster podList clusterStatus).err = some e) ∧
    ((upgradeCluster r cluster podList clusterStatus).calls = [] ∧
        ((upgradeCluster r cluster podList clusterStatus).err = none ∨
          (upgradeCluster r cluster podList clusterStatus).err =
            some ErrorInconsistentClusterStatus) ∨
      (∃ pod, upgradeCluster r cluster podList clusterStatus =
        ⟨[Call.Delete (Object.Pod pod)], r.Delete (Object.Pod pod)⟩) ∨
      (∃ name, upgradeCluster r cluster podList clusterStatus =
        ⟨[Call.setPrimaryInstance name], r.setPrimaryInstance cluster name⟩)) := by
  refine ⟨?_, ?_, ?_, ?_, ?_⟩
  · intro pod e hissued hfails
    rcases scaleDownCluster_cases r cluster childPods with
      heq | ⟨p, e2, hd, heq⟩ | ⟨p, hd, heq⟩ | ⟨p, e2, hd, _, heq⟩ | ⟨p, hd, _, heq⟩ <;>
    rw [heq] at hissued ⊢ <;>
    simp only [List.mem_cons, List.mem_singleton, Call.Delete.injEq, Object.Pod.injEq,
      reduceCtorEq, List.not_mem_nil, or_false] at hissued
    all_goals
      subst hissued
      rw [hd] at hfails
      first
        | cases hfails; rfl
        | cases hfails
  · intro name ns e hissued hfails
    rcases scaleDownCluster_cases r cluster childPods with
      heq | ⟨p, e2, hd, heq⟩ | ⟨p, hd, heq⟩ | ⟨p, e2, hd, hc, heq⟩ | ⟨p, hd, hc, heq⟩ <;>
    rw [heq] at hissued ⊢ <;>
    simp only [List.mem_cons, List.mem_singleton, Call.Delete.injEq,
      Object.PersistentVolumeClaim.injEq, reduceCtorEq, List.not_mem_nil, or_false,
      false_or] at hissued
    all_goals
      obtain ⟨rfl, rfl⟩ := hissued
      rw [hc] at hfails
      first
        | cases hfails; rfl
        | cases hfails
  · intro pod e hissued hfails
    rcases upgradeCluster_cases r cluster podList clusterStatus with
      ⟨p, _, _, heq⟩ | heq | heq | ⟨name, heq⟩ <;>
    rw [heq] at hissued ⊢ <;>
    simp only [List.mem_singleton, Call.Delete.injEq, Object.Pod.injEq, reduceCtorEq,
      List.not_mem_nil] at hissued
    subst hissued
    exact hfails
  · intro name e hissued hfails
    rcases upgradeCluster_cases r cluster podList clusterStatus with
      ⟨p, _, _, heq⟩ | heq | heq | ⟨name2, heq⟩ <;>
    rw [heq] at hissued ⊢ <;>
    simp only [List.mem_singleton, Call.setPrimaryInstance.injEq, reduceCtorEq,
      List.not_mem_nil] at hissued
    subst hissued
    exact hfails
  · rcases upgradeCluster_cases r cluster podList clusterStatus with
      ⟨p, _, _, heq⟩ | heq | heq | ⟨name, heq⟩
    · exact Or.inr (Or.inl ⟨p, heq⟩)
    · exact Or.inl ⟨by rw [heq], Or.inl (by rw [heq])⟩
    · exact Or.inl ⟨by rw [heq], Or.inr (by rw [heq])⟩
    · exact Or.inr (Or.inr ⟨name, heq⟩)

/-! ## Claims about `GetStatus` -/

/-- C14: `GetStatus` fails, with no status and the error of the failing read, when the
superuser connection cannot be obtained (nothing else is read), when the system-identifier
query fails, when the is-primary query fails, and, for a non-primary, when the log-position
query fails; it never returns a status together with an error; and it returns a status exactly
when the connection, the system identifier, the is-primary flag and, for a non-primary, the log
positions are all read successfully. -/
theorem GetStatus_all_or_nothing (inst : Instance) :
    (∀ e, inst.GetSuperuserDB = .error e →
      inst.GetStatus = ⟨[Read.GetSuperuserDB], none, some e⟩) ∧
    (∀ db e, inst.GetSuperuserDB = .ok db → db.systemIdentifier = .error e →
      inst.GetStatus = ⟨[Read.GetSuperuserDB, Read.SystemIdentifier], none, some e⟩) ∧
    (∀ db systemID e, inst.GetSuperuserDB = .ok db → db.systemIdentifier = .ok systemID →
      db.isPrimary = .error e →
      inst.GetStatus =
        ⟨[Read.GetSuperuserDB, Read.SystemIdentifier, Read.IsPrimary], none, some e⟩) ∧
    (∀ db systemID e, inst.GetSuperuserDB = .ok db → db.systemIdentifier = .ok systemID →
      db.isPrimary = .ok false → db.walPositions = .error e →
      inst.GetStatus =
        ⟨[Read.GetSuperuserDB, Read.SystemIdentifier, Read.IsPrimary, Read.WalPositions],
          none, some e⟩) ∧
    (inst.GetStatus.status = none ↔ inst.GetStatus.err ≠ none) ∧
    (inst.GetStatus.status ≠ none ↔
      ∃ db systemID isPrimary, inst.GetSuperuserDB = .ok db ∧
        db.systemIdentifier = .ok systemID ∧ db.isPrimary = .ok isPrimary ∧
        (isPrimary = false → ∃ positions, db.walPositions = .ok positions)) := by
  refine ⟨?_, ?_, ?_, ?_, ?_, ?_⟩
  · intro e hconn
    unfold Instance.GetStatus
    rw [hconn]
  · intro db e hconn hid
    unfold Instance.GetStatus
    rw [hconn]
    simp only []
    rw [hid]
  · intro db systemID e hconn hid hprim
    unfold Instance.GetStatus
    rw [hconn]
    simp only []
    rw [hid]
    simp only []
    rw [hprim]
  · intro db systemID e hconn hid hprim hwal
    unfold Instance.GetStatus
    rw [hconn]
    simp only []
    rw [hid]
    simp only []
    rw [hprim]
    simp only []
    rw [hwal]
    rfl
  · obtain ⟨conn⟩ := inst
    rcases conn with e | ⟨sid, prim, wal⟩
    · simp [Instance.GetStatus, Instance.GetSuperuserDB]
    · rcases sid with e | sid
      · simp [Instance.GetStatus, Instance.GetSuperuserDB]
      · rcases prim with e | prim
        · simp [Instance.GetStatus, Instance.GetSuperuserDB]
        · cases prim
          · rcases wal with e | lsn <;> simp [Instance.GetStatus, Instance.GetSuperuserDB]
          · simp [Instance.GetStatus, Instance.GetSuperuserDB]
  · obtain ⟨conn⟩ := inst
    rcases conn with e | ⟨sid, prim, wal⟩
    · simp [Instance.GetStatus, Instance.GetSuperuserDB]
    · rcases sid with e | sid
      · simp [Instance.GetStatus, Instance.GetSuperuserDB]
      · rcases prim with e | prim
        · simp [Instance.GetStatus, Instance.GetSuperuserDB]
        · cases prim
          · rcases wal with e | lsn
            · simp [Instance.GetStatus, Instance.GetSuperuserDB]
            · simp only [Instance.GetStatus, Instance.GetSuperuserDB]
              simp only [Bool.not_false, if_true, ne_eq, reduceCtorEq, not_false_eq_true,
                true_iff]
              exact ⟨_, sid, false, rfl, rfl, rfl, fun _ => ⟨lsn, rfl⟩⟩
          · simp [Instance.GetStatus, Instance.GetSuperuserDB]

/-- C14, at an instance that refuses the connection and at a replica whose log-position query
fails: both probes fail, the first after one read, the second after four. -/
theorem GetStatus_all_or_nothing_witness :
    unreachableInstance.GetStatus = ⟨[Read.GetSuperuserDB], none, some ⟨"connection refused"⟩⟩ ∧
    brokenReplicaInstance.GetStatus =
      ⟨[Read.GetSuperuserDB, Read.SystemIdentifier, Read.IsPrimary, Read.WalPositions],
        none, some ⟨"no wal positions"⟩⟩ :=
  ⟨(GetStatus_all_or_nothing unreachableInstance).1 ⟨"connection refused"⟩ (by decide),
    (GetStatus_all_or_nothing brokenReplicaInstance).2.2.2.1
      ⟨.ok "7000", .ok false, .error ⟨"no wal positions"⟩⟩ "7000" ⟨"no wal positions"⟩
      (by decide) (by decide) (by decide) (by decide)⟩

/-- A replica whose log-position query fails: the probe fails with that error, no status. -/
theorem GetStatus_replica_without_positions :
    Instance.GetStatus ⟨.ok ⟨.ok "7000", .ok false, .error ⟨"no wal positions"⟩⟩⟩ =
      ⟨[Read.GetSuperuserDB, Read.SystemIdentifier, Read.IsPrimary, Read.WalPositions],
        none, some ⟨"no wal positions"⟩⟩ := by
  decide

/-- C15: once the connection and the system identifier are read, if the is-primary read yields
true then `GetStatus` issues no log-position query and returns a status whose `ReceivedLsn` and
`ReplayLsn` are the zero value, whatever the log-position query would answer; if it yields
false and the log-position query answers two values, the status returned carries exactly these
two values. -/
theorem GetStatus_log_positions (inst : Instance) (db : SuperuserDB) (systemID : String)
    (hconn : inst.GetSuperuserDB = .ok db) (hid : db.systemIdentifier = .ok systemID) :
    (db.isPrimary = .ok true →
      inst.GetStatus =
        ⟨[Read.GetSuperuserDB, Read.SystemIdentifier, Read.IsPrimary],
          some ⟨"", systemID, true, "", ""⟩, none⟩) ∧
    (∀ receivedLsn replayLsn, db.isPrimary = .ok false →
      db.walPositions = .ok (receivedLsn, replayLsn) →
      inst.GetStatus =
        ⟨[Read.GetSuperuserDB, Read.SystemIdentifier, Read.IsPrimary, Read.WalPositions],
          some ⟨"", systemID, false, receivedLsn, replayLsn⟩, none⟩) := by
  constructor
  · intro hprim
    unfold Instance.GetStatus
    rw [hconn]
    simp only []
    rw [hid]
    simp only []
    rw [hprim]
    rfl
  · intro receivedLsn replayLsn hprim hwal
    unfold Instance.GetStatus
    rw [hconn]
    simp only []
    rw [hid]
    simp only []
    rw [hprim]
    simp only []
    rw [hwal]
    rfl

/-- C15, at a primary whose log-position query would fail: the probe succeeds without it. -/
theorem GetStatus_log_positions_witness :
    primaryInstance.GetSuperuserDB = .ok ⟨.ok "7000", .ok true, .error ⟨"no wal positions"⟩⟩ ∧
    (⟨.ok "7000", .ok true, .error ⟨"no wal positions"⟩⟩ : SuperuserDB).systemIdentifier =
      .ok "7000" ∧
    ((⟨.ok "7000", .ok true, .error ⟨"no wal positions"⟩⟩ : SuperuserDB).isPrimary = .ok true →
      primaryInstance.GetStatus =
        ⟨[Read.GetSuperuserDB, Read.SystemIdentifier, Read.IsPrimary],
          some ⟨"", "7000", true, "", ""⟩, none⟩) ∧
    (∀ receivedLsn replayLsn,
      (⟨.ok "7000", .ok true, .error ⟨"no wal positions"⟩⟩ : SuperuserDB).isPrimary =
        .ok false →
      (⟨.ok "7000", .ok true, .error ⟨"no wal positions"⟩⟩ : SuperuserDB).walPositions =
        .ok (receivedLsn, replayLsn) →
      primaryInstance.GetStatus =
        ⟨[Read.GetSuperuserDB, Read.SystemIdentifier, Read.IsPrimary, Read.WalPositions],
          some ⟨"", "7000", false, receivedLsn, replayLsn⟩, none⟩) :=
  ⟨by decide, by decide,
    GetStatus_log_positions primaryInstance
      ⟨.ok "7000", .ok true, .error ⟨"no wal positions"⟩⟩ "7000" (by decide) (by decide)⟩

/-- The probe of a primary and of a replica, evaluated. -/
theorem GetStatus_examples :
    primaryInstance.GetStatus =
      ⟨[Read.GetSuperuserDB, Read.SystemIdentifier, Read.IsPrimary],
        some ⟨"", "7000", true, "", ""⟩, none⟩ ∧
    replicaInstance.GetStatus =
      ⟨[Read.GetSuperuserDB, Read.SystemIdentifier, Read.IsPrimary, Read.WalPositions],
        some ⟨"", "7000", false, "300", "200"⟩, none⟩ := by
  decide

/-! ## The switchover decision without a primary in the snapshot -/

/-- C16, as stated, fails: only the primary `pg-1` is stale, the strategy is Unsupervised, and
the snapshot holds the two replicas `pg-2` and `pg-3`, so that no entry is marked primary; yet
`upgradeCluster` does not return `ErrorInconsistentClusterStatus`: it designates `pg-3`, entry 1
of the snapshot, as the new target primary. -/
theorem upgradeCluster_switches_over_without_primary :
    (∀ entry ∈ noPrimarySnapshot.Items, entry.IsPrimary = false) ∧
    (∃ p ∈ stalePrimaryPods.Items,
      p.isStale (exampleCluster .MasterUpdateStrategyUnsupervised).GetImageName = true ∧
      p.Name = (exampleCluster .MasterUpdateStrategyUnsupervised).Status.CurrentPrimary) ∧
    (∀ p ∈ stalePrimaryPods.Items,
      p.isStale (exampleCluster .MasterUpdateStrategyUnsupervised).GetImageName = true →
      p.Name = (exampleCluster .MasterUpdateStrategyUnsupervised).Status.CurrentPrimary) ∧
    upgradeCluster okReconciler (exampleCluster .MasterUpdateStrategyUnsupervised)
        stalePrimaryPods noPrimarySnapshot =
      ⟨[Call.setPrimaryInstance "pg-3"], none⟩ ∧
    upgradeCluster okReconciler (exampleCluster .MasterUpdateStrategyUnsupervised)
        stalePrimaryPods noPrimarySnapshot ≠
      ⟨[], some ErrorInconsistentClusterStatus⟩ := by
  decide

/-- C16, amended: when `upgradeCluster` reaches the automatic switchover decision (a pod named
as the current primary is stale, every stale pod is so named, the strategy is Unsupervised), it
returns `ErrorInconsistentClusterStatus` without designating a target primary exactly when
the status snapshot has fewer than two entries or its entry 1 is marked primary. Entry 0 is
not examined: with a snapshot in which no entry is marked primary it returns the error when
there are fewer than two entries, and otherwise designates the pod of entry 1. -/
theorem upgradeCluster_inconsistent_iff (r : ClusterReconciler) (cluster : Cluster)
    (podList : PodList) (clusterStatus : PostgresqlStatusList)
    (hprimary : ∃ p ∈ podList.Items, p.isStale cluster.GetImageName = true ∧
      p.Name = cluster.Status.CurrentPrimary)
    (honly : ∀ p ∈ podList.Items, p.isStale cluster.GetImageName = true →
      p.Name = cluster.Status.CurrentPrimary)
    (hstrategy : cluster.GetMasterUpdateStrategy =
      MasterUpdateStrategy.MasterUpdateStrategyUnsupervised) :
    (upgradeCluster r cluster podList clusterStatus =
        ⟨[], some ErrorInconsistentClusterStatus⟩ ↔
      (clusterStatus.Items.length < 2 ∨
        ∃ entry1, clusterStatus.Items[1]? = some entry1 ∧ entry1.IsPrimary = true)) ∧
    ((∀ entry ∈ clusterStatus.Items, entry.IsPrimary = false) →
      clusterStatus.Items.length < 2 →
      upgradeCluster r cluster podList clusterStatus =
        ⟨[], some ErrorInconsistentClusterStatus⟩) ∧
    (∀ entry1, (∀ entry ∈ clusterStatus.Items, entry.IsPrimary = false) →
      clusterStatus.Items[1]? = some entry1 →
      upgradeCluster r cluster podList clusterStatus =
        ⟨[Call.setPrimaryInstance entry1.PodName],
          r.setPrimaryInstance cluster entry1.PodName⟩) := by
  obtain ⟨p, hp, hs, _⟩ := hprimary
  rw [upgradeCluster_of_primary_only r cluster podList clusterStatus honly ⟨p, hp, hs⟩,
    hstrategy]
  cases hget : clusterStatus.Items[1]? with
  | none =>
    have hlen : clusterStatus.Items.length < 2 := by
      have := List.getElem?_eq_none_iff.mp hget
      omega
    simp [hlen]
  | some s =>
    have hlen : ¬ clusterStatus.Items.length < 2 := by
      intro hlt
      rw [List.getElem?_eq_none (by omega)] at hget
      cases hget
    have hmem : s ∈ clusterStatus.Items := List.getElem?_mem hget
    by_cases hprim : s.IsPrimary = true
    · refine ⟨by simp [hprim], fun _ hlt => absurd hlt hlen, ?_⟩
      intro entry1 hall _
      have := hall s hmem
      rw [hprim] at this
      cases this
    · refine ⟨by simp [hprim, hlen], fun _ hlt => absurd hlt hlen, ?_⟩
      intro entry1 _ hentry
      cases hentry
      simp [hprim]

/-- C16 amended, at the snapshot of the two replicas `pg-2` and `pg-3`: no error, `pg-3` is
designated. -/
theorem upgradeCluster_inconsistent_iff_witness :
    (∃ p ∈ stalePrimaryPods.Items,
      p.isStale (exampleCluster .MasterUpdateStrategyUnsupervised).GetImageName = true ∧
      p.Name = (exampleCluster .MasterUpdateStrategyUnsupervised).Status.CurrentPrimary) ∧
    (∀ p ∈ stalePrimaryPods.Items,
      p.isStale (exampleCluster .MasterUpdateStrategyUnsupervised).GetImageName = true →
      p.Name = (exampleCluster .MasterUpdateStrategyUnsupervised).Status.CurrentPrimary) ∧
    (exampleCluster .MasterUpdateStrategyUnsupervised).GetMasterUpdateStrategy =
      MasterUpdateStrategy.MasterUpdateStrategyUnsupervised ∧
    (∀ entry ∈ noPrimarySnapshot.Items, entry.IsPrimary = false) ∧
    noPrimarySnapshot.Items[1]? = some ⟨"pg-3", "7000", false, "100", "100"⟩ ∧
    upgradeCluster okReconciler (exampleCluster .MasterUpdateStrategyUnsupervised)
        stalePrimaryPods noPrimarySnapshot =
      ⟨[Call.setPrimaryInstance "pg-3"],
        okReconciler.setPrimaryInstance (exampleCluster .MasterUpdateStrategyUnsupervised)
          "pg-3"⟩ :=
  ⟨by decide, by decide, by decide, by decide, by decide,
    (upgradeCluster_inconsistent_iff okReconciler
      (exampleCluster .MasterUpdateStrategyUnsupervised) stalePrimaryPods noPrimarySnapshot
      (by decide) (by decide) (by decide)).2.2 ⟨"pg-3", "7000", false, "100", "100"⟩
      (by decide) (by decide)⟩

/-! ## Independence of the arrival order -/

/-- Two lists of pods with pairwise distinct names that hold the same pods and are both sorted
by descending name are equal. -/
theorem eq_of_perm_of_sorted_names (l1 l2 : List Pod) (hperm : l1.Perm l2)
    (hdistinct : (l1.map Pod.Name).Nodup)
    (h1 : l1.Sorted (fun a b => b.Name ≤ a.Name))
    (h2 : l2.Sorted (fun a b => b.Name ≤ a.Name)) : l1 = l2 := by
  have strict : ∀ l : List Pod, (l.map Pod.Name).Nodup →
      l.Sorted (fun a b => b.Name ≤ a.Name) → l.Sorted (fun a b => b.Name < a.Name) := by
    intro l hn hs
    have hne : l.Pairwise (fun a b => a.Name ≠ b.Name) := List.pairwise_map.mp hn
    exact (List.Pairwise.and hs hne).imp (fun {a b} h => lt_of_le_of_ne h.1 (Ne.symm h.2))
  have hdistinct2 : (l2.map Pod.Name).Nodup :=
    (List.Perm.nodup_iff (hperm.map Pod.Name)).mp hdistinct
  haveI : IsAntisymm Pod (fun a b => b.Name < a.Name) :=
    ⟨fun a b hab hba => absurd hab (lt_asymm hba)⟩
  exact List.eq_of_perm_of_sorted hperm (strict l1 hdistinct h1) (strict l2 hdistinct2 h2)

/-- With pairwise distinct names, `sort.Slice` yields the same list for every arrival order. -/
theorem sortSlice_eq_of_perm (l1 l2 : List Pod) (hperm : l1.Perm l2)
    (hdistinct : (l1.map Pod.Name).Nodup) :
    sortSlice l1 (fun i j => strLess j.Name i.Name) =
      sortSlice l2 (fun i j => strLess j.Name i.Name) := by
  apply eq_of_perm_of_sorted_names
  · exact (sortSlice_perm l1).trans (hperm.trans (sortSlice_perm l2).symm)
  · exact (List.Perm.nodup_iff ((sortSlice_perm l1).map Pod.Name)).mpr hdistinct
  · exact sortSlice_sorted l1
  · exact sortSlice_sorted l2

/-- C17: the list `upgradeCluster` scans is a permutation of the pod list in which every pod's
name is at least the name of each pod after it; and for two pod lists that hold the same pods,
with pairwise distinct names, `upgradeCluster` with the same cluster and status snapshot issues
the same requests and returns the same result. -/
theorem upgradeCluster_order_independent (r : ClusterReconciler) (cluster : Cluster)
    (podList1 podList2 : PodList) (clusterStatus : PostgresqlStatusList)
    (hperm : podList1.Items.Perm podList2.Items)
    (hdistinct : (podList1.Items.map Pod.Name).Nodup) :
    (sortSlice podList1.Items (fun i j => strLess j.Name i.Name)).Perm podList1.Items ∧
    (sortSlice podList1.Items (fun i j => strLess j.Name i.Name)).Sorted
      (fun a b => b.Name ≤ a.Name) ∧
    upgradeCluster r cluster podList1 clusterStatus =
      upgradeCluster r cluster podList2 clusterStatus := by
  refine ⟨sortSlice_perm _, sortSlice_sorted _, ?_⟩
  unfold upgradeCluster
  simp only []
  rw [sortSlice_eq_of_perm podList1.Items podList2.Items hperm hdistinct]

/-- C17, with the pods `pg-1`, `pg-2`, `pg-3` in two arrival orders. -/
theorem upgradeCluster_order_independent_witness :
    threePods.Items.Perm threePodsShuffled.Items ∧
    (threePods.Items.map Pod.Name).Nodup ∧
    (sortSlice threePods.Items (fun i j => strLess j.Name i.Name)).Perm threePods.Items ∧
    (sortSlice threePods.Items (fun i j => strLess j.Name i.Name)).Sorted
      (fun a b => b.Name ≤ a.Name) ∧
    upgradeCluster okReconciler (exampleCluster .MasterUpdateStrategyUnsupervised) threePods
        goodSnapshot =
      upgradeCluster okReconciler (exampleCluster .MasterUpdateStrategyUnsupervised)
        threePodsShuffled goodSnapshot :=
  ⟨by decide, by decide,
    upgradeCluster_order_independent okReconciler
      (exampleCluster .MasterUpdateStrategyUnsupervised) threePods threePodsShuffled
      goodSnapshot (by decide) (by decide)⟩

/-- Both arrival orders, evaluated: the scan order is `pg-3`, `pg-2`, `pg-1` and `pg-2` is
deleted. -/
theorem upgradeCluster_shuffled :
    sortSlice threePodsShuffled.Items (fun i j => strLess j.Name i.Name) =
      [examplePod "pg-3" "v2", examplePod "pg-2" "v1", examplePod "pg-1" "v1"] ∧
    upgradeCluster okReconciler (exampleCluster .MasterUpdateStrategyUnsupervised)
        threePodsShuffled goodSnapshot =
      ⟨[Call.Delete (Object.Pod (examplePod "pg-2" "v1"))], none⟩ := by
  decide

/-! ## Pods whose image name cannot be read -/

/-- With pairwise distinct names, dropping pods before `sort.Slice` or after it gives the same
list, for every correct sort: both lists are sorted and hold the same pods. -/
theorem filter_sortSlice_of_nodup (keep : Pod → Bool) (l : List Pod)
    (hdistinct : (l.map Pod.Name).Nodup) :
    (sortSlice l (fun i j => strLess j.Name i.Name)).filter keep =
      sortSlice (l.filter keep) (fun i j => strLess j.Name i.Name) := by
  apply eq_of_perm_of_sorted_names
  · exact ((sortSlice_perm l).filter keep).trans (sortSlice_perm (l.filter keep)).symm
  · have hsorted : ((sortSlice l (fun i j => strLess j.Name i.Name)).map Pod.Name).Nodup :=
      (List.Perm.nodup_iff ((sortSlice_perm l).map Pod.Name)).mpr hdistinct
    exact hsorted.sublist ((List.filter_sublist _).map Pod.Name)
  · exact (sortSlice_sorted l).filter keep
  · exact sortSlice_sorted (l.filter keep)

theorem imageReadable_of_isStale (pod : Pod) (t : String) (h : pod.isStale t = true) :
    pod.imageReadable = true := by
  unfold Pod.isStale at h
  unfold Pod.imageReadable
  cases hl : GetPostgreSQLImageName pod with
  | error e => rw [hl] at h; cases h
  | ok used => rfl

/-- The outcome of `upgradeCluster` depends on the pod list only through the first stale pod
of the scan that is not the current primary and through whether any pod is stale. -/
theorem upgradeCluster_congr (r : ClusterReconciler) (c : Cluster) (podList1 podList2 : PodList)
    (st : PostgresqlStatusList)
    (hfind : (sortSlice podList1.Items (fun i j => strLess j.Name i.Name)).find?
        (fun q => q.isStaleReplica c c.GetImageName) =
      (sortSlice podList2.Items (fun i j => strLess j.Name i.Name)).find?
        (fun q => q.isStaleReplica c c.GetImageName))
    (hstale : (∃ p ∈ podList1.Items, p.isStale c.GetImageName = true) ↔
      (∃ p ∈ podList2.Items, p.isStale c.GetImageName = true)) :
    upgradeCluster r c podList1 st = upgradeCluster r c podList2 st := by
  have honly : ∀ podList : PodList,
      (sortSlice podList.Items (fun i j => strLess j.Name i.Name)).find?
        (fun q => q.isStaleReplica c c.GetImageName) = none →
      ∀ p ∈ podList.Items, p.isStale c.GetImageName = true →
        p.Name = c.Status.CurrentPrimary := by
    intro podList hnone p hp hs
    by_contra hne
    apply List.find?_eq_none.mp hnone p ((mem_sortSlice _ _).mpr hp)
    simp only [Pod.isStaleReplica, Bool.and_eq_true, decide_eq_true_eq]
    exact ⟨hs, fun h => hne h.symm⟩
  have hnone_stale : ∀ podList : PodList,
      ¬ (∃ p ∈ podList.Items, p.isStale c.GetImageName = true) →
      ∀ p ∈ podList.Items, p.isStale c.GetImageName = false := by
    intro podList hno p hp
    by_contra hs
    exact hno ⟨p, hp, by simpa using hs⟩
  cases h1 : (sortSlice podList1.Items (fun i j => strLess j.Name i.Name)).find?
      (fun q => q.isStaleReplica c c.GetImageName) with
  | some p =>
    rw [upgradeCluster_of_find_some r c podList1 st p h1,
      upgradeCluster_of_find_some r c podList2 st p (hfind ▸ h1)]
  | none =>
    have h2 := hfind ▸ h1
    by_cases hsome : ∃ p ∈ podList1.Items, p.isStale c.GetImageName = true
    · rw [upgradeCluster_of_primary_only r c podList1 st (honly podList1 h1) hsome,
        upgradeCluster_of_primary_only r c podList2 st (honly podList2 h2) (hstale.mp hsome)]
    · rw [upgradeCluster_of_none_stale r c podList1 st (hnone_stale podList1 hsome),
        upgradeCluster_of_none_stale r c podList2 st
          (hnone_stale podList2 (fun h => hsome (hstale.mpr h)))]

/-- C18: a pod whose image name cannot be read is skipped by `upgradeCluster`. It is never
deleted; the loop passes over it without changing `masterIdx` and goes on with the pods after
it; with pairwise distinct names the outcome is the outcome for the pod list without the pods
whose image name cannot be read, so such a pod never counts as a stale primary; and when every
pod either has an unreadable image name or runs the target image, `upgradeCluster` returns
success without any delete or status update. -/
theorem upgradeCluster_skips_unreadable (r : ClusterReconciler) (cluster : Cluster)
    (podList : PodList) (clusterStatus : PostgresqlStatusList) :
    (∀ pod, Call.Delete (Object.Pod pod) ∈
        (upgradeCluster r cluster podList clusterStatus).calls → pod.imageReadable = true) ∧
    (∀ (pod : Pod) (rest : List Pod) (idx : Nat) (masterIdx : Int),
      pod.imageReadable = false →
      upgradeLoop r cluster cluster.GetImageName (pod :: rest) idx masterIdx =
        upgradeLoop r cluster cluster.GetImageName rest (idx + 1) masterIdx) ∧
    ((podList.Items.map Pod.Name).Nodup →
      upgradeCluster r cluster podList clusterStatus =
        upgradeCluster r cluster ⟨podList.Items.filter Pod.imageReadable⟩ clusterStatus) ∧
    ((∀ p ∈ podList.Items, p.imageReadable = false ∨
        GetPostgreSQLImageName p = .ok cluster.GetImageName) →
      upgradeCluster r cluster podList clusterStatus = ⟨[], none⟩) := by
  have hstale_of_unreadable : ∀ (p : Pod) (t : String), p.imageReadable = false →
      p.isStale t = false := by
    intro p t hu
    unfold Pod.imageReadable at hu
    unfold Pod.isStale
    cases hl : GetPostgreSQLImageName p with
    | error e => rfl
    | ok used => rw [hl] at hu; cases hu
  refine ⟨?_, ?_, ?_, ?_⟩
  · intro pod hissued
    rcases upgradeCluster_cases r cluster podList clusterStatus with
      ⟨p, _, hf, heq⟩ | heq | heq | ⟨name, heq⟩ <;>
    rw [heq] at hissued <;>
    simp only [List.mem_singleton, Call.Delete.injEq, Object.Pod.injEq, reduceCtorEq,
      List.not_mem_nil] at hissued
    subst hissued
    simp only [Pod.isStaleReplica, Bool.and_eq_true, decide_eq_true_eq] at hf
    exact imageReadable_of_isStale pod _ hf.1
  · intro pod rest idx masterIdx hu
    rw [upgradeLoop_cons, hstale_of_unreadable pod _ hu]
    simp
  · intro hdistinct
    apply upgradeCluster_congr
    · rw [← filter_sortSlice_of_nodup Pod.imageReadable podList.Items hdistinct,
        List.find?_filter]
      congr 1
      funext q
      by_cases hq : q.isStaleReplica cluster cluster.GetImageName = true
      · have hs : q.isStale cluster.GetImageName = true := by
          simp only [Pod.isStaleReplica, Bool.and_eq_true] at hq
          exact hq.1
        simp [hq, imageReadable_of_isStale q _ hs]
      · simp [hq]
    · constructor
      · rintro ⟨p, hp, hs⟩
        exact ⟨p, List.mem_filter.mpr ⟨hp, imageReadable_of_isStale p _ hs⟩, hs⟩
      · rintro ⟨p, hp, hs⟩
        exact ⟨p, (List.mem_filter.mp hp).1, hs⟩
  · intro hall
    apply upgradeCluster_of_none_stale
    intro p hp
    rcases hall p hp with hu | hok
    · exact hstale_of_unreadable p _ hu
    · rw [isStale_of_ok p _ _ hok]
      simp

/-- C18, at the pods `pg-1` (primary, `v1`), `pg-2` (`v1`) and `pg-3` (unreadable): `pg-3` is
scanned first and skipped, and the scan goes on to delete `pg-2`, as it does on the list
without `pg-3`. -/
theorem upgradeCluster_skips_unreadable_witness :
    (unreadableAheadPods.Items.map Pod.Name).Nodup ∧
    sortSlice unreadableAheadPods.Items (fun i j => strLess j.Name i.Name) =
      [unreadablePod "pg-3", examplePod "pg-2" "v1", examplePod "pg-1" "v1"] ∧
    upgradeCluster okReconciler (exampleCluster .MasterUpdateStrategyUnsupervised)
        unreadableAheadPods goodSnapshot =
      upgradeCluster okReconciler (exampleCluster .MasterUpdateStrategyUnsupervised)
        ⟨unreadableAheadPods.Items.filter Pod.imageReadable⟩ goodSnapshot ∧
    upgradeCluster okReconciler (exampleCluster .MasterUpdateStrategyUnsupervised)
        unreadableAheadPods goodSnapshot =
      ⟨[Call.Delete (Object.Pod (examplePod "pg-2" "v1"))], none⟩ :=
  ⟨by decide, by decide,
    (upgradeCluster_skips_unreadable okReconciler
      (exampleCluster .MasterUpdateStrategyUnsupervised) unreadableAheadPods
      goodSnapshot).2.2.1 (by decide),
    by decide⟩

/-- The primary `pg-1` with an unreadable image name and the other pods on the target image,
evaluated: nothing is deleted and no target primary is designated. -/
theorem upgradeCluster_unreadable_primary :
    upgradeCluster okReconciler (exampleCluster .MasterUpdateStrategyUnsupervised)
      unreadablePrimaryPods goodSnapshot = ⟨[], none⟩ := by
  decide

end CNPG
